import Mathlib

/-!
SPLAT kernel mutex tests (src/splat/splat-mutex.c).

A shallow embedding of the four mutex regression tests and of the two work
items they hand to a workqueue, followed by the properties proved about them.

Conventions of the embedding.

* The kernel services the tests call (kmalloc, the workqueue, the mutex under
  test, kzt_vprint) live outside splat-mutex.c.  Their results are inputs:
  the record `Env` carries what the allocators and `queue_work` answer, and
  the record `MutexOps` carries the mutex implementation under test, over an
  arbitrary state type `M`.  `refMutex` is the mutex the specification
  describes (states unheld / held(owner)).
* A test returns an `Outcome`: its return code (`none` when the call never
  returns because `mutex_enter` or `flush_workqueue` waits for ever) and the
  ordered log of the calls the test itself made.
* The single-threaded workqueue of test 1 runs a queued item to its end
  during the flush.  The multi-threaded workqueue of test 2 is a transition
  system: every accepted item is one execution of `kzt_mutex_test2_work`,
  an execution advances by one C statement per step, and a schedule (a list
  of execution numbers) fixes the interleaving.
* C `int` values are `Int`; the one place where arithmetic is performed on an
  `int` (`rc + 1` in `kzt_mutex_test2_work`) is wrapped to 32 bits explicitly.
* A record of type `mutex_priv` is taken apart by pattern matching where it
  is read and rebuilt field by field where it is written.
-/

namespace SplatMutex

/-! ## Constants of splat-mutex.c -/

def KZT_SUBSYSTEM_MUTEX : Nat := 0x0400
def KZT_MUTEX_NAME : String := "mutex"
def KZT_MUTEX_DESC : String := "Kernel Mutex Tests"

def KZT_MUTEX_TEST1_ID : Nat := 0x0401
def KZT_MUTEX_TEST1_NAME : String := "tryenter"
def KZT_MUTEX_TEST1_DESC : String := "Validate mutex_tryenter() correctness"

def KZT_MUTEX_TEST2_ID : Nat := 0x0402
def KZT_MUTEX_TEST2_NAME : String := "race"
def KZT_MUTEX_TEST2_DESC : String := "Many threads entering/exiting the mutex"

def KZT_MUTEX_TEST3_ID : Nat := 0x0403
def KZT_MUTEX_TEST3_NAME : String := "owned"
def KZT_MUTEX_TEST3_DESC : String := "Validate mutex_owned() correctness"

def KZT_MUTEX_TEST4_ID : Nat := 0x0404
def KZT_MUTEX_TEST4_NAME : String := "owner"
def KZT_MUTEX_TEST4_DESC : String := "Validate mutex_owner() correctness"

def KZT_MUTEX_TEST_MAGIC : Nat := 0x115599DD
def KZT_MUTEX_TEST_NAME : String := "mutex_test"
def KZT_MUTEX_TEST_WORKQ : String := "mutex_wq"
def KZT_MUTEX_TEST_COUNT : Nat := 128

/-! ## Kernel constants used by the tests (Linux errno values, width of int) -/

def ENOMEM : Int := 12
def EBUSY : Int := 16
def EINVAL : Int := 22

def INT_MAX : Int := 2147483647

/-- Value of a 32-bit two's complement `int` holding the mathematical integer `x`. -/
def wrap_int (x : Int) : Int := (x + 2147483648) % 4294967296 - 2147483648

/-! ## Data model -/

/-- Identity of a task (a `kthread_t *`); the NULL pointer is `Option.none`. -/
abbrev Tid := Nat

/-- The `mutex_priv_t` record shared by a test and its work items.  The array
`mp_work` of work_structs is represented by the workqueue model (the list of
program counters of the queued items) and is not repeated here. -/
structure mutex_priv (M : Type) where
  mp_magic : Nat
  mp_file : Nat
  mp_mtx : M
  mp_rc : Int
  deriving DecidableEq

/-- The interface of the mutex under test, as the tests use it.  The functions
are declared in the SPL headers, outside splat-mutex.c; they are parameters.
`mutex_enter` answers `none` when the caller has to wait. `km_owner` is the
field of `kmutex_t` that test 3 prints. -/
structure MutexOps (M : Type) where
  mutex_init : M
  mutex_enter : Tid → M → Option M
  mutex_tryenter : Tid → M → Bool × M
  mutex_exit : Tid → M → M
  mutex_owned : Tid → M → Bool
  mutex_owner : M → Option Tid
  km_owner : M → Option Tid

/-- One argument of a formatted diagnostic. -/
inductive Arg where
  | int (v : Int)
  | str (s : String)
  deriving DecidableEq

/-- One call of `kzt_vprint(file, name, fmt, args...)`. -/
structure Msg where
  name : String
  fmt : String
  args : List Arg
  deriving DecidableEq

/-- The calls recorded in a log. `mutex_destroy` records the state of the
mutex it is applied to. -/
inductive Event (M : Type) where
  | kmalloc (ok : Bool)
  | create_workqueue (ok : Bool)
  | mutex_init
  | mutex_enter (t : Tid)
  | mutex_tryenter (t : Tid) (ok : Bool)
  | mutex_exit (t : Tid)
  | store_rc (v : Int)
  | queue_work (i : Nat) (ok : Bool)
  | flush_workqueue
  | kzt_vprint (m : Msg)
  | mutex_destroy (m : M)
  | destroy_workqueue
  | kfree
  deriving DecidableEq

/-- What the surroundings of a test invocation answer. -/
structure Env where
  /-- The calling task, `current`. -/
  current : Tid
  /-- The `struct file *` handed to the test (the reporting sink). -/
  file : Nat
  /-- Whether `kmalloc` returns a block. -/
  kmalloc_ok : Bool
  /-- Whether `create_singlethread_workqueue` / `create_workqueue` returns a queue. -/
  wq_ok : Bool
  /-- Answer of the n-th call of `queue_work` (counted from 0). -/
  queue_ok : Nat → Bool
  /-- The worker task that runs the n-th queued item. -/
  worker : Nat → Tid
  /-- Content of the field `mp_rc` of the fresh kmalloc block. -/
  junk_rc : Int
  /-- Order in which the workers of test 2 take their steps during the flush. -/
  sched : List Nat
  /-- Value of `num_online_cpus()`. -/
  ncpus : Int
  /-- The `pid` field of a task. -/
  pid : Tid → Int

/-- Result of one test invocation. -/
structure Outcome (M : Type) where
  rc : Option Int
  log : List (Event M)
  deriving DecidableEq

/-- The expression `owner ? owner->pid : -1` of the diagnostics. -/
def owner_pid (env : Env) : Option Tid → Int
  | some t => env.pid t
  | none => -1

/-! ## Reference mutex -/

/-- Modelled from the spec: the mutex handle of the data model, an
exclusive-lock object "with states unheld and held(owner)"; the implementation
of `kmutex_t` is in the SPL headers, which are not among the sources. -/
inductive KMutex where
  | unheld
  | held (owner : Tid)
  deriving DecidableEq

/-- Modelled from the spec: the contract of the mutex under test (the SPL
implementation is not among the sources).  Acquire waits while the mutex is
held and makes the caller the owner; try-acquire fails exactly when the mutex
is held; release clears the owner; the predicate tests owner = caller; the
query returns the owner or the "none" sentinel. -/
def refMutex : MutexOps KMutex where
  mutex_init := .unheld
  mutex_enter t m :=
    match m with
    | .unheld => some (.held t)
    | .held _ => none
  mutex_tryenter t m :=
    match m with
    | .unheld => (true, .held t)
    | .held o => (false, .held o)
  mutex_exit _ _ := .unheld
  mutex_owned t m := decide (m = .held t)
  mutex_owner m :=
    match m with
    | .unheld => none
    | .held o => some o
  km_owner m :=
    match m with
    | .unheld => none
    | .held o => some o

/-! ## Work items -/

/-- The way a work item can fail. -/
inductive Fault where
  | InvalidState
  deriving DecidableEq

/-- How the execution of a work item ended. -/
inductive WorkStatus where
  | returned
  | failed (f : Fault)
  deriving DecidableEq

/-- What one execution of a work item leaves behind: how it ended, the private
state, and the stores to `mp_rc` and mutex calls it made, in order. -/
structure WorkResult (M : Type) where
  status : WorkStatus
  mp : mutex_priv M
  log : List (Event M)
  deriving DecidableEq

/-- Modelled from the spec: ASSERT, which the SPL debug header defines and
which is not among the sources.  The work item "tag-checks its private state
first and fails fast (InvalidState) if the tag mismatches": a false condition
stops the work item with the fault, a true one lets it continue. -/
def ASSERT (c : Bool) : Option Fault :=
  if c then none else some .InvalidState

/-- `kzt_mutex_test1_work` (splat-mutex.c:38-48), run by the task `self` on
the record whose four fields are named in the pattern. -/
def kzt_mutex_test1_work {M : Type} (ops : MutexOps M) (self : Tid) :
    mutex_priv M → WorkResult M
  | ⟨mp_magic, mp_file, mp_mtx, mp_rc⟩ =>
    match ASSERT (mp_magic == KZT_MUTEX_TEST_MAGIC) with
    | some f => ⟨.failed f, ⟨mp_magic, mp_file, mp_mtx, mp_rc⟩, []⟩
    | none =>
      -- mp->mp_rc = 0; if (!mutex_tryenter(&mp->mp_mtx)) mp->mp_rc = -EBUSY;
      match ops.mutex_tryenter self mp_mtx with
      | (false, m) =>
        ⟨.returned, ⟨mp_magic, mp_file, m, -EBUSY⟩,
          [.store_rc 0, .mutex_tryenter self false, .store_rc (-EBUSY)]⟩
      | (true, m) =>
        ⟨.returned, ⟨mp_magic, mp_file, m, 0⟩,
          [.store_rc 0, .mutex_tryenter self true]⟩

/-- Position of one execution of `kzt_mutex_test2_work`: the statement it is
about to execute, with the value of its local `rc` once that is loaded. -/
inductive PC where
  /-- At `ASSERT(mp->mp_magic == KZT_MUTEX_TEST_MAGIC)`. -/
  | assert
  /-- At `mutex_enter(&mp->mp_mtx)`. -/
  | enter
  /-- At `rc = mp->mp_rc`. -/
  | load
  /-- At `set_current_state(TASK_INTERRUPTIBLE); schedule_timeout(HZ / 100)`. -/
  | sleep (rc : Int)
  /-- At `mp->mp_rc = rc + 1`. -/
  | store (rc : Int)
  /-- At `mutex_exit(&mp->mp_mtx)`. -/
  | exit
  /-- Returned. -/
  | done
  /-- Stopped by the failed ASSERT. -/
  | fault
  deriving DecidableEq

/-- One statement of `kzt_mutex_test2_work` (splat-mutex.c:123-139), executed
by the task `self` at position `pc` on the record whose four fields are named
in the pattern.  `none`: no statement can be executed (the task waits in
`mutex_enter`, or the execution is over). -/
def kzt_mutex_test2_work_step {M : Type} (ops : MutexOps M) (self : Tid) :
    mutex_priv M → PC → Option (mutex_priv M × PC × List (Event M))
  | ⟨mp_magic, mp_file, mp_mtx, mp_rc⟩, .assert =>
    match ASSERT (mp_magic == KZT_MUTEX_TEST_MAGIC) with
    | some _ => some (⟨mp_magic, mp_file, mp_mtx, mp_rc⟩, .fault, [])
    | none => some (⟨mp_magic, mp_file, mp_mtx, mp_rc⟩, .enter, [])
  | ⟨mp_magic, mp_file, mp_mtx, mp_rc⟩, .enter =>
    match ops.mutex_enter self mp_mtx with
    | none => none
    | some m => some (⟨mp_magic, mp_file, m, mp_rc⟩, .load, [.mutex_enter self])
  | ⟨mp_magic, mp_file, mp_mtx, mp_rc⟩, .load =>
    some (⟨mp_magic, mp_file, mp_mtx, mp_rc⟩, .sleep mp_rc, [])
  | ⟨mp_magic, mp_file, mp_mtx, mp_rc⟩, .sleep rc =>
    some (⟨mp_magic, mp_file, mp_mtx, mp_rc⟩, .store rc, [])
  | ⟨mp_magic, mp_file, mp_mtx, _⟩, .store rc =>
    some (⟨mp_magic, mp_file, mp_mtx, wrap_int (rc + 1)⟩, .exit,
      [.store_rc (wrap_int (rc + 1))])
  | ⟨mp_magic, mp_file, mp_mtx, mp_rc⟩, .exit =>
    some (⟨mp_magic, mp_file, ops.mutex_exit self mp_mtx, mp_rc⟩, .done,
      [.mutex_exit self])
  | _, .done => none
  | _, .fault => none

/-- Runs one execution of `kzt_mutex_test2_work` from position `pc` to its
end, with no other task running; `n` bounds the number of statements. -/
def kzt_mutex_test2_work_from {M : Type} (ops : MutexOps M) (self : Tid) :
    Nat → mutex_priv M → PC → List (Event M) → Option (WorkResult M)
  | _, mp, .done, log => some ⟨.returned, mp, log⟩
  | _, mp, .fault, log => some ⟨.failed .InvalidState, mp, log⟩
  | 0, _, _, _ => none
  | n + 1, mp, pc, log =>
    match kzt_mutex_test2_work_step ops self mp pc with
    | none => none
    | some (mp, pc, evs) => kzt_mutex_test2_work_from ops self n mp pc (log ++ evs)

/-- `kzt_mutex_test2_work` (splat-mutex.c:123-139) run alone by the task
`self`: its six statements in sequence.  `none`: it waits in `mutex_enter`. -/
def kzt_mutex_test2_work {M : Type} (ops : MutexOps M) (self : Tid)
    (mp : mutex_priv M) : Option (WorkResult M) :=
  kzt_mutex_test2_work_from ops self 6 mp .assert []

/-! ## The multi-threaded workqueue of test 2 -/

/-- The executions of `kzt_mutex_test2_work` in flight on one shared
`mutex_priv_t`: the shared record and the position of every execution. -/
structure Sys (M : Type) where
  mp : mutex_priv M
  pcs : List PC
  deriving DecidableEq

/-- Execution number `i` (run by the task `thr i`) executes its next
statement; `none` when it cannot. -/
def Sys.step {M : Type} (ops : MutexOps M) (thr : Nat → Tid) (i : Nat)
    (s : Sys M) : Option (Sys M) :=
  match s.pcs[i]? with
  | none => none
  | some pc =>
    match kzt_mutex_test2_work_step ops (thr i) s.mp pc with
    | none => none
    | some (mp, pc, _) => some ⟨mp, s.pcs.set i pc⟩

/-- An interleaving: the executions take their steps in the order listed. -/
def Sys.run {M : Type} (ops : MutexOps M) (thr : Nat → Tid) :
    List Nat → Sys M → Option (Sys M)
  | [], s => some s
  | i :: is, s =>
    match Sys.step ops thr i s with
    | none => none
    | some s => Sys.run ops thr is s

/-- Every execution has returned. -/
def Sys.finished {M : Type} (s : Sys M) : Bool :=
  s.pcs.all (fun pc => pc == .done)

/-- `n` executions of `kzt_mutex_test2_work` about to start on `mp`. -/
def Sys.start {M : Type} (mp : mutex_priv M) (n : Nat) : Sys M :=
  ⟨mp, List.replicate n .assert⟩

/-- `flush_workqueue` on the multi-threaded queue holding `n` accepted items:
the workers interleave as `sched` says, and the call returns the shared record
once every item has returned.  `none`: `sched` is not an interleaving that
completes the items, so the flush does not return along it.  (Workers may
start before the flush is called; the statements the caller executes in
between touch neither `mp_rc` nor `mp_mtx`, so they are placed first.) -/
def flush_workqueue {M : Type} (ops : MutexOps M) (thr : Nat → Tid)
    (sched : List Nat) (mp : mutex_priv M) (n : Nat) : Option (mutex_priv M) :=
  match Sys.run ops thr sched (Sys.start mp n) with
  | none => none
  | some s => if s.finished then some s.mp else none

/-- Whether an execution has executed its store to `mp_rc` (1) or not (0). -/
def PC.stored : PC → Nat
  | .exit => 1
  | .done => 1
  | _ => 0

/-- Whether an execution is between its `mutex_enter` and its `mutex_exit` (1)
or not (0). -/
def PC.inside : PC → Nat
  | .load => 1
  | .sleep _ => 1
  | .store _ => 1
  | .exit => 1
  | _ => 0

/-- Whether an execution holds a loaded value of `mp_rc` it has not stored
back yet (1) or not (0). -/
def PC.loaded : PC → Nat
  | .sleep _ => 1
  | .store _ => 1
  | _ => 0

/-- The value of the local variable `rc` of an execution, once loaded and
until stored back. -/
def PC.local_rc : PC → Option Int
  | .sleep rc => some rc
  | .store rc => some rc
  | _ => none

/-- Number of statements an execution still has to execute. -/
def PC.remaining : PC → Nat
  | .assert => 6
  | .enter => 5
  | .load => 4
  | .sleep _ => 3
  | .store _ => 2
  | .exit => 1
  | .done => 0
  | .fault => 0

/-- Number of executions counted by `f`. -/
def tally (f : PC → Nat) (pcs : List PC) : Nat :=
  (pcs.map f).sum

/-- With any mutex at all: the counter is at most the number of stores
executed, and so is every loaded value (there are at most INT_MAX
executions). -/
def Bounded {M : Type} (s : Sys M) : Prop :=
  (s.pcs.length : Int) ≤ INT_MAX ∧
  0 ≤ s.mp.mp_rc ∧ s.mp.mp_rc ≤ tally PC.stored s.pcs ∧
  ∀ pc ∈ s.pcs, ∀ rc, PC.local_rc pc = some rc → 0 ≤ rc ∧ rc ≤ tally PC.stored s.pcs

/-- With the reference mutex: the record carries the magic, the mutex is held
exactly when one execution is between its `mutex_enter` and its `mutex_exit`,
the counter is the number of stores executed, every loaded value is the
current counter, and no execution is stopped at its ASSERT (there are at most
INT_MAX executions). -/
def Exclusive (s : Sys KMutex) : Prop :=
  (s.pcs.length : Int) ≤ INT_MAX ∧
  s.mp.mp_magic = KZT_MUTEX_TEST_MAGIC ∧
  tally PC.inside s.pcs = (if s.mp.mp_mtx = .unheld then 0 else 1) ∧
  s.mp.mp_rc = tally PC.stored s.pcs ∧
  (∀ pc ∈ s.pcs, ∀ rc, PC.local_rc pc = some rc → rc = s.mp.mp_rc) ∧
  (∀ pc ∈ s.pcs, pc ≠ PC.fault)

/-- The executions run one after the other: each of the executions 0, .., n-1
takes its six steps in a row. -/
def sequential : Nat → List Nat
  | 0 => []
  | n + 1 => sequential n ++ List.replicate 6 n

/-! ## Test 1 -/

/-- The tail of `kzt_mutex_test1` from the label `out`. -/
def test1_out {M : Type} (rc : Int) (mp : mutex_priv M) (log : List (Event M)) :
    Outcome M :=
  ⟨some rc, log ++ [.mutex_destroy mp.mp_mtx, .destroy_workqueue, .kfree]⟩

/-- The private state of test 1 when the first work item is queued: the
caller holds the mutex (state `m`), `mp_rc` still has the content of the
fresh block. -/
def test1_priv {M : Type} (env : Env) (m : M) : mutex_priv M :=
  ⟨KZT_MUTEX_TEST_MAGIC, env.file, m, env.junk_rc⟩

/-- First run of the work item of test 1, on the single worker task, while
the caller holds the mutex. -/
def test1_first_run {M : Type} (ops : MutexOps M) (env : Env) (m : M) :
    WorkResult M :=
  kzt_mutex_test1_work ops (env.worker 0) (test1_priv env m)

/-- The caller's `mutex_exit(&(mp->mp_mtx))`. -/
def caller_mutex_exit {M : Type} (ops : MutexOps M) (cur : Tid) :
    mutex_priv M → mutex_priv M
  | ⟨mp_magic, mp_file, mp_mtx, mp_rc⟩ =>
    ⟨mp_magic, mp_file, ops.mutex_exit cur mp_mtx, mp_rc⟩

/-- The private state after the caller's `mutex_exit` that follows the first flush. -/
def test1_released {M : Type} (ops : MutexOps M) (env : Env) (m : M) :
    mutex_priv M :=
  caller_mutex_exit ops env.current (test1_first_run ops env m).mp

/-- Second run of the work item of test 1, after the caller released the mutex. -/
def test1_second_run {M : Type} (ops : MutexOps M) (env : Env) (m : M) :
    WorkResult M :=
  kzt_mutex_test1_work ops (env.worker 0) (test1_released ops env m)

/-- `kzt_mutex_test1`, lines 104-113: the check that follows the second flush. -/
def test1_check_second {M : Type} (ops : MutexOps M) (env : Env) (m : M)
    (log : List (Event M)) : Outcome M :=
  -- Work item failed to aquire mutex, very bad!
  if (test1_second_run ops env m).mp.mp_rc ≠ 0 then
    test1_out (-EINVAL) (test1_second_run ops env m).mp log
  else
    test1_out 0 (test1_second_run ops env m).mp
      (log ++ [.kzt_vprint ⟨KZT_MUTEX_TEST1_NAME, "%s",
        [.str "mutex_trylock() correctly succeeded when mutex unheld\n"]⟩])

/-- `kzt_mutex_test1`, lines 96-104: the second submission and flush.  The
flush of the single-threaded queue runs the queued item to its end on the
worker task; it does not return if the item stops at its ASSERT. -/
def test1_second_phase {M : Type} (ops : MutexOps M) (env : Env) (m : M)
    (log : List (Event M)) : Outcome M :=
  if !env.queue_ok 1 then
    test1_out (-EINVAL) (test1_released ops env m) (log ++ [.queue_work 1 false])
  else
    match (test1_second_run ops env m).status with
    | .failed _ => ⟨none, log ++ [.queue_work 1 true, .flush_workqueue]⟩
    | .returned =>
      test1_check_second ops env m (log ++ [.queue_work 1 true, .flush_workqueue])

/-- `kzt_mutex_test1`, lines 87-94: the check that follows the first flush
and the caller's `mutex_exit`. -/
def test1_check_first {M : Type} (ops : MutexOps M) (env : Env) (m : M)
    (log : List (Event M)) : Outcome M :=
  -- Work item successfully aquired mutex, very bad!
  if (test1_released ops env m).mp_rc ≠ -EBUSY then
    test1_out (-EINVAL) (test1_released ops env m) log
  else
    test1_second_phase ops env m
      (log ++ [.kzt_vprint ⟨KZT_MUTEX_TEST1_NAME, "%s",
        [.str "mutex_trylock() correctly failed when mutex held\n"]⟩])

/-- `kzt_mutex_test1`, lines 71-85: the first submission, the flush and the
caller's `mutex_exit`, entered with the mutex held by the caller in state `m`. -/
def test1_first_phase {M : Type} (ops : MutexOps M) (env : Env) (m : M)
    (log : List (Event M)) : Outcome M :=
  if !env.queue_ok 0 then
    test1_out (-EINVAL) (caller_mutex_exit ops env.current (test1_priv env m))
      (log ++ [.queue_work 0 false, .mutex_exit env.current])
  else
    match (test1_first_run ops env m).status with
    | .failed _ => ⟨none, log ++ [.queue_work 0 true, .flush_workqueue]⟩
    | .returned =>
      test1_check_first ops env m
        (log ++ [.queue_work 0 true, .flush_workqueue, .mutex_exit env.current])

/-- `kzt_mutex_test1` (splat-mutex.c:50-121). -/
def kzt_mutex_test1 {M : Type} (ops : MutexOps M) (env : Env) : Outcome M :=
  if !env.kmalloc_ok then
    ⟨some (-ENOMEM), [.kmalloc false]⟩
  else if !env.wq_ok then
    ⟨some (-ENOMEM), [.kmalloc true, .create_workqueue false, .kfree]⟩
  else
    match ops.mutex_enter env.current ops.mutex_init with
    | none =>
      ⟨none, [.kmalloc true, .create_workqueue true, .mutex_init,
        .mutex_enter env.current]⟩
    | some m =>
      test1_first_phase ops env m
        [.kmalloc true, .create_workqueue true, .mutex_init, .mutex_enter env.current]

/-! ## Test 2 -/

/-- What the submission loop of test 2 carries: the return code so far, the
number of accepted items, the log. -/
structure LoopState (M : Type) where
  rc : Int
  queued : Nat
  log : List (Event M)

/-- One iteration of the loop of `kzt_mutex_test2` (splat-mutex.c:171-179). -/
def test2_loop_body {M : Type} (env : Env) (st : LoopState M) (i : Nat) :
    LoopState M :=
  if !env.queue_ok i then
    { st with
      rc := -EINVAL
      log := st.log ++ [.queue_work i false,
        .kzt_vprint ⟨KZT_MUTEX_TEST2_NAME, "Failed to queue work id %d\n", [.int i]⟩] }
  else
    { st with queued := st.queued + 1, log := st.log ++ [.queue_work i true] }

/-- The loop `for (i = 0; i < KZT_MUTEX_TEST_COUNT; i++)` of `kzt_mutex_test2`,
entered with `rc = 0`. -/
def test2_loop {M : Type} (env : Env) (log : List (Event M)) : LoopState M :=
  (List.range KZT_MUTEX_TEST_COUNT).foldl (test2_loop_body env) ⟨0, 0, log⟩

/-- The private state of test 2 when the loop starts. -/
def test2_priv {M : Type} (ops : MutexOps M) (env : Env) : mutex_priv M :=
  ⟨KZT_MUTEX_TEST_MAGIC, env.file, ops.mutex_init, 0⟩

/-- The shared record when `flush_workqueue` returns in test 2. -/
def test2_flushed {M : Type} (ops : MutexOps M) (env : Env) :
    Option (mutex_priv M) :=
  flush_workqueue ops env.worker env.sched (test2_priv ops env)
    (test2_loop (M := M) env []).queued

/-- `kzt_mutex_test2`, lines 183-199: the check that follows the flush, on
the shared record `mp` the flush left, with `rc` and `log` as the loop left
them. -/
def test2_check {M : Type} (env : Env) (mp : mutex_priv M) (rc : Int)
    (log : List (Event M)) : Outcome M :=
  if mp.mp_rc = KZT_MUTEX_TEST_COUNT then
    ⟨some rc, log ++
      [.kzt_vprint ⟨KZT_MUTEX_TEST2_NAME,
          "%d racing threads correctly entered/exited the mutex %d times\n",
          [.int env.ncpus, .int mp.mp_rc]⟩,
       .mutex_destroy mp.mp_mtx, .destroy_workqueue, .kfree]⟩
  else
    ⟨some (-EINVAL), log ++
      [.kzt_vprint ⟨KZT_MUTEX_TEST2_NAME,
          "%d racing threads only processed %d/%d mutex work items\n",
          [.int env.ncpus, .int mp.mp_rc, .int KZT_MUTEX_TEST_COUNT]⟩,
       .mutex_destroy mp.mp_mtx, .destroy_workqueue, .kfree]⟩

/-- The log of test 2 when its loop starts. -/
def test2_log0 {M : Type} : List (Event M) :=
  [.kmalloc true, .create_workqueue true, .mutex_init]

/-- `kzt_mutex_test2` (splat-mutex.c:141-200). -/
def kzt_mutex_test2 {M : Type} (ops : MutexOps M) (env : Env) : Outcome M :=
  if !env.kmalloc_ok then
    ⟨some (-ENOMEM), [.kmalloc false]⟩
  else if !env.wq_ok then
    ⟨some (-ENOMEM), [.kmalloc true, .create_workqueue false, .kfree]⟩
  else
    match test2_flushed ops env with
    | none => ⟨none, (test2_loop env test2_log0).log ++ [.flush_workqueue]⟩
    | some mp =>
      test2_check env mp (test2_loop (M := M) env test2_log0).rc
        ((test2_loop env test2_log0).log ++ [.flush_workqueue])

/-! ## Test 3 and test 4 -/

/-- `kzt_mutex_test3` (splat-mutex.c:202-238). -/
def kzt_mutex_test3 {M : Type} (ops : MutexOps M) (env : Env) : Outcome M :=
  let cur := env.current
  let mtx := ops.mutex_init
  let log : List (Event M) := [.mutex_init, .mutex_enter cur]
  match ops.mutex_enter cur mtx with
  | none => ⟨none, log⟩
  | some mtx =>
    -- Mutex should be owned by current
    if !ops.mutex_owned cur mtx then
      ⟨some (-EINVAL), log ++
        [.kzt_vprint ⟨KZT_MUTEX_TEST3_NAME,
            "Mutex should be owned by pid %d but is owned by pid %d\n",
            [.int (env.pid cur), .int (owner_pid env (ops.km_owner mtx))]⟩,
         .mutex_destroy mtx]⟩
    else
      let mtx := ops.mutex_exit cur mtx
      -- Mutex should not be owned by any task
      if ops.mutex_owned cur mtx then
        ⟨some (-EINVAL), log ++
          [.mutex_exit cur,
           .kzt_vprint ⟨KZT_MUTEX_TEST3_NAME,
              "Mutex should not be owned but is owned by pid %d\n",
              [.int (owner_pid env (ops.km_owner mtx))]⟩,
           .mutex_destroy mtx]⟩
      else
        ⟨some 0, log ++
          [.mutex_exit cur,
           .kzt_vprint ⟨KZT_MUTEX_TEST3_NAME, "%s",
              [.str "Correct mutex_owned() behavior\n"]⟩,
           .mutex_destroy mtx]⟩

/-- `kzt_mutex_test4` (splat-mutex.c:240-278).  Its three `kzt_vprint` calls
pass `KZT_MUTEX_TEST3_NAME`, as in the source. -/
def kzt_mutex_test4 {M : Type} (ops : MutexOps M) (env : Env) : Outcome M :=
  let cur := env.current
  let mtx := ops.mutex_init
  let log : List (Event M) := [.mutex_init, .mutex_enter cur]
  match ops.mutex_enter cur mtx with
  | none => ⟨none, log⟩
  | some mtx =>
    -- Mutex should be owned by current
    let owner := ops.mutex_owner mtx
    if some cur ≠ owner then
      ⟨some (-EINVAL), log ++
        [.kzt_vprint ⟨KZT_MUTEX_TEST3_NAME,
            "Mutex should be owned by pid %d but is owned by pid %d\n",
            [.int (env.pid cur), .int (owner_pid env owner)]⟩,
         .mutex_destroy mtx]⟩
    else
      let mtx := ops.mutex_exit cur mtx
      -- Mutex should not be owned by any task
      let owner := ops.mutex_owner mtx
      if owner.isSome then
        ⟨some (-EINVAL), log ++
          [.mutex_exit cur,
           .kzt_vprint ⟨KZT_MUTEX_TEST3_NAME,
              "Mutex should not be owned but is owned by pid %d\n",
              [.int (owner_pid env owner)]⟩,
           .mutex_destroy mtx]⟩
      else
        ⟨some 0, log ++
          [.mutex_exit cur,
           .kzt_vprint ⟨KZT_MUTEX_TEST3_NAME, "%s",
              [.str "Correct mutex_owner() behavior\n"]⟩,
           .mutex_destroy mtx]⟩

/-! ## Registration -/

/-- The four entry points. -/
inductive TestFn where
  | test1
  | test2
  | test3
  | test4
  deriving DecidableEq

/-- Runs an entry point. -/
def TestFn.invoke {M : Type} (ops : MutexOps M) (env : Env) : TestFn → Outcome M
  | .test1 => kzt_mutex_test1 ops env
  | .test2 => kzt_mutex_test2 ops env
  | .test3 => kzt_mutex_test3 ops env
  | .test4 => kzt_mutex_test4 ops env

/-- An entry of a subsystem's list of tests. -/
structure kzt_test where
  name : String
  desc : String
  id : Nat
  test : TestFn
  deriving DecidableEq

/-- The `kzt_subsystem_t` record. -/
structure kzt_subsystem where
  name : String
  desc : String
  id : Nat
  test_list : List kzt_test
  deriving DecidableEq

/-- Modelled from the spec: KZT_TEST_INIT, which splat-ctl.h defines and which
is not among the sources.  It adds the (id, name, description, entry point)
tuple at the end of the "fixed, ordered, append-only list" of the subsystem.
The names are shorter than the name buffers. -/
def KZT_TEST_INIT (sub : kzt_subsystem) (name desc : String) (id : Nat)
    (test : TestFn) : kzt_subsystem :=
  { sub with test_list := sub.test_list ++ [⟨name, desc, id, test⟩] }

/-- `kzt_mutex_init` (splat-mutex.c:280-307); `none` is the NULL it returns
when `kmalloc` fails. -/
def kzt_mutex_init (kmalloc_ok : Bool) : Option kzt_subsystem :=
  if !kmalloc_ok then none
  else
    let sub : kzt_subsystem := ⟨KZT_MUTEX_NAME, KZT_MUTEX_DESC, KZT_SUBSYSTEM_MUTEX, []⟩
    let sub := KZT_TEST_INIT sub KZT_MUTEX_TEST1_NAME KZT_MUTEX_TEST1_DESC
      KZT_MUTEX_TEST1_ID .test1
    let sub := KZT_TEST_INIT sub KZT_MUTEX_TEST2_NAME KZT_MUTEX_TEST2_DESC
      KZT_MUTEX_TEST2_ID .test2
    let sub := KZT_TEST_INIT sub KZT_MUTEX_TEST3_NAME KZT_MUTEX_TEST3_DESC
      KZT_MUTEX_TEST3_ID .test3
    let sub := KZT_TEST_INIT sub KZT_MUTEX_TEST4_NAME KZT_MUTEX_TEST4_DESC
      KZT_MUTEX_TEST4_ID .test4
    some sub

/-- The name under which `kzt_mutex_init` registers an entry point. -/
def registered_name (t : TestFn) : Option String :=
  match kzt_mutex_init true with
  | none => none
  | some sub => (sub.test_list.find? (fun e => e.test == t)).map (fun e => e.name)

/-- The names with which the `kzt_vprint` calls of a log are tagged. -/
def vprint_names {M : Type} : List (Event M) → List String
  | [] => []
  | .kzt_vprint m :: l => m.name :: vprint_names l
  | _ :: l => vprint_names l

/-- The `kzt_vprint` calls of a log, in order, with tag, format and arguments. -/
def vprints {M : Type} : List (Event M) → List Msg
  | [] => []
  | .kzt_vprint m :: l => m :: vprints l
  | _ :: l => vprints l

/-! ## Bookkeeping of resources -/

/-- The resources a test holds: the private block, the workqueue, the
initialised mutex. -/
structure Live where
  priv : Bool
  wq : Bool
  mtx : Bool
  deriving DecidableEq

/-- Effect of one call on the resources held; `none` when the call releases
something that is not held or acquires something already held. -/
def Live.apply {M : Type} (l : Live) : Event M → Option Live
  | .kmalloc true => if l.priv then none else some { l with priv := true }
  | .create_workqueue true => if l.wq then none else some { l with wq := true }
  | .mutex_init => if l.mtx then none else some { l with mtx := true }
  | .mutex_destroy _ => if l.mtx then some { l with mtx := false } else none
  | .destroy_workqueue => if l.wq then some { l with wq := false } else none
  | .kfree => if l.priv then some { l with priv := false } else none
  | _ => some l

/-- Replays a log on the resources held. -/
def Live.replay {M : Type} : Live → List (Event M) → Option Live
  | l, [] => some l
  | l, e :: es =>
    match l.apply e with
    | none => none
    | some l => Live.replay l es

/-- Number of calls of `mutex_destroy` in a log. -/
def count_mutex_destroy {M : Type} : List (Event M) → Nat
  | [] => 0
  | .mutex_destroy _ :: l => count_mutex_destroy l + 1
  | _ :: l => count_mutex_destroy l

/-- Number of calls of `destroy_workqueue` in a log. -/
def count_destroy_workqueue {M : Type} : List (Event M) → Nat
  | [] => 0
  | .destroy_workqueue :: l => count_destroy_workqueue l + 1
  | _ :: l => count_destroy_workqueue l

/-- Number of calls of `kfree` in a log. -/
def count_kfree {M : Type} : List (Event M) → Nat
  | [] => 0
  | .kfree :: l => count_kfree l + 1
  | _ :: l => count_kfree l

/-- A stretch of a log that holds only submissions and diagnostics of test 2. -/
def loop_segment {M : Type} (seg : List (Event M)) : Prop :=
  (∀ n ∈ vprint_names seg, n = KZT_MUTEX_TEST2_NAME) ∧
  count_mutex_destroy seg = 0 ∧ count_destroy_workqueue seg = 0 ∧ count_kfree seg = 0 ∧
  (∀ l : Live, Live.replay l seg = some l)

/-! ## Concrete inputs -/

/-- A mutex that does not exclude: `mutex_tryenter` succeeds also while the
mutex is held.  It is the defect test 1 exists to detect. -/
def brokenMutex : MutexOps KMutex :=
  { refMutex with mutex_tryenter := fun t _ => (true, .held t) }

/-- An invocation in which every allocation and every submission succeeds:
caller task 1, worker tasks 2, 3, .., two CPUs. -/
def env_ok : Env where
  current := 1
  file := 0
  kmalloc_ok := true
  wq_ok := true
  queue_ok := fun _ => true
  worker := fun n => n + 2
  junk_rc := 77
  sched := []
  ncpus := 2
  pid := fun t => 100 + t

/-- As `env_ok`, but `queue_work` rejects every submission. -/
def env_reject : Env :=
  { env_ok with queue_ok := fun _ => false }

/-- As `env_ok`, with the workers of test 2 running one after the other. -/
def env_race : Env :=
  { env_ok with sched := sequential KZT_MUTEX_TEST_COUNT }

/-! ## Test 3 and test 4: ownership queries -/

/-- C4: when the caller's `mutex_enter` returns (leaving the mutex in state
`m`), `kzt_mutex_test3` returns 0 if and only if `mutex_owned` reports true
right after that `mutex_enter` and false right after the caller's
`mutex_exit`; every other outcome is -EINVAL.  Over the reference mutex
(unheld / held(owner)) the test returns 0 for every caller. -/
theorem kzt_mutex_test3_spec {M : Type} (ops : MutexOps M) (env : Env) (m : M)
    (h : ops.mutex_enter env.current ops.mutex_init = some m) :
    ((kzt_mutex_test3 ops env).rc = some 0 ↔
      ops.mutex_owned env.current m = true ∧
      ops.mutex_owned env.current (ops.mutex_exit env.current m) = false) ∧
    ((kzt_mutex_test3 ops env).rc ≠ some 0 →
      (kzt_mutex_test3 ops env).rc = some (-EINVAL)) ∧
    (∀ e : Env, (kzt_mutex_test3 refMutex e).rc = some 0) := by
  refine ⟨?_, ?_, ?_⟩
  · simp only [kzt_mutex_test3, h]
    cases h1 : ops.mutex_owned env.current m <;>
      cases h2 : ops.mutex_owned env.current (ops.mutex_exit env.current m) <;>
      simp [EINVAL]
  · simp only [kzt_mutex_test3, h]
    cases h1 : ops.mutex_owned env.current m <;>
      cases h2 : ops.mutex_owned env.current (ops.mutex_exit env.current m) <;>
      simp [EINVAL]
  · intro e
    simp [kzt_mutex_test3, refMutex]

/-- Witness of C4: the reference mutex, caller task 1. -/
theorem kzt_mutex_test3_spec_witness :
    refMutex.mutex_enter env_ok.current refMutex.mutex_init = some (.held 1) ∧
    ((kzt_mutex_test3 refMutex env_ok).rc = some 0 ↔
      refMutex.mutex_owned env_ok.current (.held 1) = true ∧
      refMutex.mutex_owned env_ok.current
        (refMutex.mutex_exit env_ok.current (.held 1)) = false) :=
  ⟨by decide, (kzt_mutex_test3_spec refMutex env_ok (.held 1) (by decide)).1⟩

/-- C5: when the caller's `mutex_enter` returns (leaving the mutex in state
`m`), `kzt_mutex_test4` returns 0 if and only if `mutex_owner` returns the
calling task after that `mutex_enter` and NULL after the caller's
`mutex_exit`.  It returns -EINVAL when the first query yields anything else
(NULL included), and when the second query yields any task (the caller
included). -/
theorem kzt_mutex_test4_spec {M : Type} (ops : MutexOps M) (env : Env) (m : M)
    (h : ops.mutex_enter env.current ops.mutex_init = some m) :
    ((kzt_mutex_test4 ops env).rc = some 0 ↔
      ops.mutex_owner m = some env.current ∧
      ops.mutex_owner (ops.mutex_exit env.current m) = none) ∧
    (ops.mutex_owner m ≠ some env.current →
      (kzt_mutex_test4 ops env).rc = some (-EINVAL)) ∧
    (ops.mutex_owner m = some env.current →
      ops.mutex_owner (ops.mutex_exit env.current m) ≠ none →
      (kzt_mutex_test4 ops env).rc = some (-EINVAL)) := by
  refine ⟨?_, ?_, ?_⟩
  · simp only [kzt_mutex_test4, h]
    by_cases h1 : some env.current = ops.mutex_owner m
    · cases h2 : ops.mutex_owner (ops.mutex_exit env.current m) <;>
        simp [← h1, h2, EINVAL]
    · have h1' : ¬ ops.mutex_owner m = some env.current := fun e => h1 e.symm
      simp [h1, h1', EINVAL]
  · intro h1
    have h1' : ¬ some env.current = ops.mutex_owner m := fun e => h1 e.symm
    simp [kzt_mutex_test4, h, h1']
  · intro h1 h2
    obtain ⟨t, ht⟩ := Option.ne_none_iff_exists'.mp h2
    simp [kzt_mutex_test4, h, h1, ht]

/-- Witness of C5: the reference mutex, caller task 1. -/
theorem kzt_mutex_test4_spec_witness :
    refMutex.mutex_enter env_ok.current refMutex.mutex_init = some (.held 1) ∧
    ((kzt_mutex_test4 refMutex env_ok).rc = some 0 ↔
      refMutex.mutex_owner (.held 1) = some env_ok.current ∧
      refMutex.mutex_owner (refMutex.mutex_exit env_ok.current (.held 1)) = none) :=
  ⟨by decide, (kzt_mutex_test4_spec refMutex env_ok (.held 1) (by decide)).1⟩

/-! ## The work items -/

/-- C6: on a private record whose `mp_magic` is not KZT_MUTEX_TEST_MAGIC,
`kzt_mutex_test1_work` and `kzt_mutex_test2_work` stop with the InvalidState
fault, leave the record as it was (no store to `mp_rc`) and make no call at
all (no `mutex_tryenter`, no `mutex_enter`).  In the workqueue of test 2 the
execution moves to `fault` without an effect and never takes another step. -/
theorem work_items_check_magic {M : Type} (ops : MutexOps M) (self : Tid)
    (mp : mutex_priv M) (h : mp.mp_magic ≠ KZT_MUTEX_TEST_MAGIC) :
    kzt_mutex_test1_work ops self mp = ⟨.failed .InvalidState, mp, []⟩ ∧
    kzt_mutex_test2_work ops self mp = some ⟨.failed .InvalidState, mp, []⟩ ∧
    kzt_mutex_test2_work_step ops self mp .assert = some (mp, .fault, []) ∧
    (∀ mp2 : mutex_priv M, kzt_mutex_test2_work_step ops self mp2 .fault = none) := by
  have hb : (mp.mp_magic == KZT_MUTEX_TEST_MAGIC) = false := by simpa using h
  refine ⟨?_, ?_, ?_, ?_⟩
  · simp [kzt_mutex_test1_work, ASSERT, hb]
  · simp [kzt_mutex_test2_work, kzt_mutex_test2_work_from, kzt_mutex_test2_work_step,
      ASSERT, hb]
  · simp [kzt_mutex_test2_work_step, ASSERT, hb]
  · intro mp2
    rfl

/-- Witness of C6: a record with magic 0 and the held reference mutex. -/
theorem work_items_check_magic_witness :
    (0 : Nat) ≠ KZT_MUTEX_TEST_MAGIC ∧
    kzt_mutex_test1_work refMutex 2 ⟨0, 0, .held 1, 5⟩
      = ⟨.failed .InvalidState, ⟨0, 0, .held 1, 5⟩, []⟩ :=
  ⟨by decide, (work_items_check_magic refMutex 2 ⟨0, 0, .held 1, 5⟩ (by decide)).1⟩

/-! ## Test 1: try-acquire -/

/-- The work item of test 1 passes its tag check on a record that carries
the magic, whatever state the mutex is in, and leaves the magic in place. -/
theorem test1_work_returns {M : Type} (ops : MutexOps M) (self : Tid)
    (mp : mutex_priv M) (hm : mp.mp_magic = KZT_MUTEX_TEST_MAGIC) :
    (kzt_mutex_test1_work ops self mp).status = .returned ∧
    (kzt_mutex_test1_work ops self mp).mp.mp_magic = KZT_MUTEX_TEST_MAGIC := by
  obtain ⟨magic, file, mtx, rc⟩ := mp
  simp only at hm
  subst hm
  simp only [kzt_mutex_test1_work, ASSERT, beq_self_eq_true, if_true]
  rcases ops.mutex_tryenter self mtx with ⟨_ | _, m2⟩ <;> simp

theorem test1_first_run_returns {M : Type} (ops : MutexOps M) (env : Env) (m : M) :
    (test1_first_run ops env m).status = .returned :=
  (test1_work_returns ops _ _ rfl).1

theorem test1_second_run_returns {M : Type} (ops : MutexOps M) (env : Env) (m : M) :
    (test1_second_run ops env m).status = .returned := by
  have h1 : (test1_released ops env m).mp_magic = KZT_MUTEX_TEST_MAGIC :=
    (test1_work_returns ops _ (test1_priv env m) rfl).2
  have h2 : (test1_released ops env m).mp_magic
      = (test1_first_run ops env m).mp.mp_magic := rfl
  exact (test1_work_returns ops _ _ h1).1

/-- On the reference mutex held by somebody, the work item of test 1 records -EBUSY. -/
theorem test1_work_ref_held (self : Tid) (f : Nat) (o : Tid) (rc : Int) :
    kzt_mutex_test1_work refMutex self ⟨KZT_MUTEX_TEST_MAGIC, f, .held o, rc⟩ =
      ⟨.returned, ⟨KZT_MUTEX_TEST_MAGIC, f, .held o, -EBUSY⟩,
        [.store_rc 0, .mutex_tryenter self false, .store_rc (-EBUSY)]⟩ := by
  simp [kzt_mutex_test1_work, ASSERT, refMutex]

/-- On the unheld reference mutex, the work item of test 1 records 0 and
leaves the mutex held by the worker. -/
theorem test1_work_ref_unheld (self : Tid) (f : Nat) (rc : Int) :
    kzt_mutex_test1_work refMutex self ⟨KZT_MUTEX_TEST_MAGIC, f, .unheld, rc⟩ =
      ⟨.returned, ⟨KZT_MUTEX_TEST_MAGIC, f, .held self, 0⟩,
        [.store_rc 0, .mutex_tryenter self true]⟩ := by
  simp [kzt_mutex_test1_work, ASSERT, refMutex]

theorem refMutex_enter_init (t : Tid) :
    refMutex.mutex_enter t refMutex.mutex_init = some (.held t) := rfl

theorem test1_first_run_ref (env : Env) (o : Tid) :
    test1_first_run refMutex env (.held o) =
      ⟨.returned, ⟨KZT_MUTEX_TEST_MAGIC, env.file, .held o, -EBUSY⟩,
        [.store_rc 0, .mutex_tryenter (env.worker 0) false, .store_rc (-EBUSY)]⟩ :=
  test1_work_ref_held _ _ _ _

theorem test1_released_ref (env : Env) (o : Tid) :
    test1_released refMutex env (.held o) =
      ⟨KZT_MUTEX_TEST_MAGIC, env.file, .unheld, -EBUSY⟩ := by
  rw [test1_released, test1_first_run_ref]
  rfl

theorem test1_second_run_ref (env : Env) (o : Tid) :
    test1_second_run refMutex env (.held o) =
      ⟨.returned, ⟨KZT_MUTEX_TEST_MAGIC, env.file, .held (env.worker 0), 0⟩,
        [.store_rc 0, .mutex_tryenter (env.worker 0) true]⟩ := by
  rw [test1_second_run, test1_released_ref]
  exact test1_work_ref_unheld _ _ _

/-- Over the reference mutex, test 1 with both submissions accepted. -/
theorem kzt_mutex_test1_ref (e : Env) (ek : e.kmalloc_ok = true) (ew : e.wq_ok = true)
    (e0 : e.queue_ok 0 = true) (e1 : e.queue_ok 1 = true) :
    kzt_mutex_test1 refMutex e = ⟨some 0,
      [.kmalloc true, .create_workqueue true, .mutex_init, .mutex_enter e.current,
       .queue_work 0 true, .flush_workqueue, .mutex_exit e.current,
       .kzt_vprint ⟨KZT_MUTEX_TEST1_NAME, "%s",
          [.str "mutex_trylock() correctly failed when mutex held\n"]⟩,
       .queue_work 1 true, .flush_workqueue,
       .kzt_vprint ⟨KZT_MUTEX_TEST1_NAME, "%s",
          [.str "mutex_trylock() correctly succeeded when mutex unheld\n"]⟩,
       .mutex_destroy (.held (e.worker 0)), .destroy_workqueue, .kfree]⟩ := by
  simp [kzt_mutex_test1, test1_first_phase, test1_check_first, test1_second_phase,
    test1_check_second, ek, ew, e0, e1, test1_out, refMutex_enter_init, test1_first_run_ref,
    test1_released_ref, test1_second_run_ref]

/-- C1: in an execution of `kzt_mutex_test1` in which the private state and
the workqueue are allocated (and the caller's `mutex_enter` returns, leaving
the mutex in state `m`), the test returns 0 if and only if both `queue_work`
submissions are accepted, the first run of the work item (made while the
caller holds the mutex) records `mp_rc = -EBUSY` and the second run (made
after the caller's `mutex_exit`) records `mp_rc = 0`; every other such
execution returns -EINVAL.  Over the reference mutex, whose `mutex_tryenter`
fails exactly when the mutex is held, the test returns 0 whenever both
submissions are accepted. -/
theorem kzt_mutex_test1_spec {M : Type} (ops : MutexOps M) (env : Env) (m : M)
    (hk : env.kmalloc_ok = true) (hw : env.wq_ok = true)
    (h : ops.mutex_enter env.current ops.mutex_init = some m) :
    ((kzt_mutex_test1 ops env).rc = some 0 ↔
      env.queue_ok 0 = true ∧ env.queue_ok 1 = true ∧
      (test1_first_run ops env m).mp.mp_rc = -EBUSY ∧
      (test1_second_run ops env m).mp.mp_rc = 0) ∧
    ((kzt_mutex_test1 ops env).rc ≠ some 0 →
      (kzt_mutex_test1 ops env).rc = some (-EINVAL)) ∧
    (∀ e : Env, e.kmalloc_ok = true → e.wq_ok = true →
      e.queue_ok 0 = true → e.queue_ok 1 = true →
      (kzt_mutex_test1 refMutex e).rc = some 0) := by
  have r1 := test1_first_run_returns ops env m
  have r2 := test1_second_run_returns ops env m
  have hrel : (test1_released ops env m).mp_rc = (test1_first_run ops env m).mp.mp_rc := rfl
  refine ⟨?_, ?_, ?_⟩
  · simp only [kzt_mutex_test1, test1_first_phase, test1_check_first, test1_second_phase,
      test1_check_second, hk, hw, h, r1, r2, hrel, test1_out]
    by_cases q0 : env.queue_ok 0 = true <;> by_cases q1 : env.queue_ok 1 = true <;>
      by_cases a : (test1_first_run ops env m).mp.mp_rc = -EBUSY <;>
      by_cases b : (test1_second_run ops env m).mp.mp_rc = 0 <;>
      simp [q0, q1, a, b, EINVAL]
  · simp only [kzt_mutex_test1, test1_first_phase, test1_check_first, test1_second_phase,
      test1_check_second, hk, hw, h, r1, r2, hrel, test1_out]
    by_cases q0 : env.queue_ok 0 = true <;> by_cases q1 : env.queue_ok 1 = true <;>
      by_cases a : (test1_first_run ops env m).mp.mp_rc = -EBUSY <;>
      by_cases b : (test1_second_run ops env m).mp.mp_rc = 0 <;>
      simp [q0, q1, a, b, EINVAL]
  · intro e ek ew e0 e1
    rw [kzt_mutex_test1_ref e ek ew e0 e1]

/-- Witness of C1: the reference mutex, every allocation and submission
succeeding; the test returns 0. -/
theorem kzt_mutex_test1_spec_witness :
    env_ok.kmalloc_ok = true ∧ env_ok.wq_ok = true ∧
    refMutex.mutex_enter env_ok.current refMutex.mutex_init = some (.held 1) ∧
    ((kzt_mutex_test1 refMutex env_ok).rc = some 0 ↔
      env_ok.queue_ok 0 = true ∧ env_ok.queue_ok 1 = true ∧
      (test1_first_run refMutex env_ok (.held 1)).mp.mp_rc = -EBUSY ∧
      (test1_second_run refMutex env_ok (.held 1)).mp.mp_rc = 0) :=
  ⟨by decide, by decide, by decide,
    (kzt_mutex_test1_spec refMutex env_ok (.held 1) (by decide) (by decide) (by decide)).1⟩

/-- A return of 0 from test 1 needs both allocations and both submissions. -/
theorem test1_zero_needs {M : Type} (ops : MutexOps M) (env : Env)
    (h : (kzt_mutex_test1 ops env).rc = some 0) :
    env.kmalloc_ok = true ∧ env.wq_ok = true ∧
    env.queue_ok 0 = true ∧ env.queue_ok 1 = true := by
  by_cases hk : env.kmalloc_ok = true
  · by_cases hw : env.wq_ok = true
    · cases hm : ops.mutex_enter env.current ops.mutex_init with
      | none => simp [kzt_mutex_test1, hk, hw, hm] at h
      | some m =>
        have := ((kzt_mutex_test1_spec ops env m hk hw hm).1.mp h)
        exact ⟨hk, hw, this.1, this.2.1⟩
    · simp [kzt_mutex_test1, hk, hw, ENOMEM] at h
  · simp [kzt_mutex_test1, hk, ENOMEM] at h

/-- C10: over the reference mutex (a successful `mutex_tryenter` makes the
calling worker the owner), every execution of `kzt_mutex_test1` that returns 0
calls `mutex_destroy` once, on a mutex in state held(worker): the work item
never calls `mutex_exit`, so the mutex its second run acquired is still
held. -/
theorem kzt_mutex_test1_destroys_held (env : Env)
    (h : (kzt_mutex_test1 refMutex env).rc = some 0) :
    Event.mutex_destroy (KMutex.held (env.worker 0)) ∈ (kzt_mutex_test1 refMutex env).log ∧
    count_mutex_destroy (kzt_mutex_test1 refMutex env).log = 1 ∧
    (∀ (self t : Tid) (mp : mutex_priv KMutex),
      Event.mutex_exit t ∉ (kzt_mutex_test1_work refMutex self mp).log) ∧
    (∀ (self : Tid) (mp : mutex_priv KMutex), mp.mp_magic = KZT_MUTEX_TEST_MAGIC →
      mp.mp_mtx = .unheld →
      (kzt_mutex_test1_work refMutex self mp).mp.mp_mtx = .held self) := by
  obtain ⟨hk, hw, q0, q1⟩ := test1_zero_needs refMutex env h
  refine ⟨?_, ?_, ?_, ?_⟩
  · rw [kzt_mutex_test1_ref env hk hw q0 q1]
    simp
  · rw [kzt_mutex_test1_ref env hk hw q0 q1]
    simp [count_mutex_destroy]
  · intro self t mp
    obtain ⟨magic, file, mtx, rc⟩ := mp
    simp only [kzt_mutex_test1_work, ASSERT]
    by_cases hm : magic = KZT_MUTEX_TEST_MAGIC
    · rcases refMutex.mutex_tryenter self mtx with ⟨_ | _, m2⟩ <;> simp [hm]
    · simp [hm]
  · intro self mp hm hu
    obtain ⟨magic, file, mtx, rc⟩ := mp
    simp only at hm hu
    subst hm hu
    rw [test1_work_ref_unheld]

/-- Witness of C10: the reference mutex, every allocation and submission
succeeding; the worker is task 2. -/
theorem kzt_mutex_test1_destroys_held_witness :
    (kzt_mutex_test1 refMutex env_ok).rc = some 0 ∧
    Event.mutex_destroy (KMutex.held 2) ∈ (kzt_mutex_test1 refMutex env_ok).log :=
  ⟨by decide, (kzt_mutex_test1_destroys_held env_ok (by decide)).1⟩

/-! ## Logs -/

theorem vprint_names_append {M : Type} (a b : List (Event M)) :
    vprint_names (a ++ b) = vprint_names a ++ vprint_names b := by
  induction a with
  | nil => rfl
  | cons e a ih => cases e <;> simp [vprint_names, ih]

theorem count_mutex_destroy_append {M : Type} (a b : List (Event M)) :
    count_mutex_destroy (a ++ b) = count_mutex_destroy a + count_mutex_destroy b := by
  induction a with
  | nil => simp [count_mutex_destroy]
  | cons e a ih =>
    cases e <;> simp [count_mutex_destroy, ih]
    omega

theorem count_destroy_workqueue_append {M : Type} (a b : List (Event M)) :
    count_destroy_workqueue (a ++ b)
      = count_destroy_workqueue a + count_destroy_workqueue b := by
  induction a with
  | nil => simp [count_destroy_workqueue]
  | cons e a ih =>
    cases e <;> simp [count_destroy_workqueue, ih]
    omega

theorem count_kfree_append {M : Type} (a b : List (Event M)) :
    count_kfree (a ++ b) = count_kfree a + count_kfree b := by
  induction a with
  | nil => simp [count_kfree]
  | cons e a ih =>
    cases e <;> simp [count_kfree, ih]
    omega

theorem Live.replay_append {M : Type} (l : Live) (a b : List (Event M)) :
    Live.replay l (a ++ b) =
      match Live.replay l a with
      | none => none
      | some l => Live.replay l b := by
  induction a generalizing l with
  | nil => rfl
  | cons e a ih =>
    simp only [List.cons_append, Live.replay]
    cases l.apply e with
    | none => rfl
    | some l2 => exact ih l2

theorem loop_segment_nil {M : Type} : loop_segment ([] : List (Event M)) := by
  refine ⟨?_, rfl, rfl, rfl, fun l => rfl⟩
  intro n hn
  simp [vprint_names] at hn

theorem loop_segment_append {M : Type} {a b : List (Event M)}
    (ha : loop_segment a) (hb : loop_segment b) : loop_segment (a ++ b) := by
  obtain ⟨a1, a2, a3, a4, a5⟩ := ha
  obtain ⟨b1, b2, b3, b4, b5⟩ := hb
  refine ⟨?_, ?_, ?_, ?_, ?_⟩
  · intro n hn
    rw [vprint_names_append, List.mem_append] at hn
    cases hn with
    | inl h => exact a1 n h
    | inr h => exact b1 n h
  · rw [count_mutex_destroy_append, a2, b2]
  · rw [count_destroy_workqueue_append, a3, b3]
  · rw [count_kfree_append, a4, b4]
  · intro l
    rw [Live.replay_append, a5 l]
    exact b5 l

/-- What the submission loop of test 2 does over the indices `l`, from the
state `st`: it appends a stretch of submissions and "Failed to queue"
diagnostics to the log, keeps `rc` when every submission is accepted and sets
it to -EINVAL otherwise, and counts the accepted submissions. -/
theorem test2_loop_fold {M : Type} (env : Env) (l : List Nat) (st : LoopState M) :
    (∃ seg, (l.foldl (test2_loop_body env) st).log = st.log ++ seg ∧ loop_segment seg) ∧
    (l.foldl (test2_loop_body env) st).rc
      = (if l.all env.queue_ok = true then st.rc else -EINVAL) ∧
    (l.foldl (test2_loop_body env) st).queued = st.queued + l.countP env.queue_ok := by
  induction l generalizing st with
  | nil => exact ⟨⟨[], by simp, loop_segment_nil⟩, by simp, by simp⟩
  | cons i l ih =>
    obtain ⟨⟨seg, hseg, hs⟩, hrc, hq⟩ := ih (test2_loop_body env st i)
    simp only [List.foldl_cons]
    by_cases hi : env.queue_ok i = true
    · have hb : test2_loop_body env st i
          = { st with queued := st.queued + 1, log := st.log ++ [.queue_work i true] } := by
        simp [test2_loop_body, hi]
      refine ⟨⟨[.queue_work i true] ++ seg, ?_, ?_⟩, ?_, ?_⟩
      · rw [hseg, hb]
        simp
      · refine loop_segment_append ?_ hs
        refine ⟨?_, rfl, rfl, rfl, fun l => rfl⟩
        intro n hn
        simp [vprint_names] at hn
      · rw [hrc, hb]
        simp [hi]
      · rw [hq, hb]
        simp [hi]
        omega
    · have hi' : env.queue_ok i = false := by simpa using hi
      have hb : test2_loop_body env st i
          = { st with
              rc := -EINVAL
              log := st.log ++ [.queue_work i false,
                .kzt_vprint ⟨KZT_MUTEX_TEST2_NAME, "Failed to queue work id %d\n",
                  [.int i]⟩] } := by
        simp [test2_loop_body, hi']
      refine ⟨⟨[.queue_work i false,
          .kzt_vprint ⟨KZT_MUTEX_TEST2_NAME, "Failed to queue work id %d\n", [.int i]⟩]
          ++ seg, ?_, ?_⟩, ?_, ?_⟩
      · rw [hseg, hb]
        simp
      · refine loop_segment_append ?_ hs
        refine ⟨?_, rfl, rfl, rfl, fun l => rfl⟩
        intro n hn
        simpa [vprint_names] using hn
      · rw [hrc, hb]
        simp [hi']
      · rw [hq, hb]
        simp [hi']

/-- The loop of test 2: its log is the log it started with followed by a
stretch of submissions and diagnostics. -/
theorem test2_loop_log {M : Type} (env : Env) (log : List (Event M)) :
    ∃ seg, (test2_loop env log).log = log ++ seg ∧ loop_segment seg :=
  (test2_loop_fold env _ ⟨0, 0, log⟩).1

/-- The loop of test 2 leaves `rc = 0` exactly when every one of the
KZT_MUTEX_TEST_COUNT submissions is accepted, and -EINVAL otherwise. -/
theorem test2_loop_rc {M : Type} (env : Env) (log : List (Event M)) :
    (test2_loop env log).rc
      = if (List.range KZT_MUTEX_TEST_COUNT).all env.queue_ok = true then 0 else -EINVAL :=
  (test2_loop_fold env _ ⟨0, 0, log⟩).2.1

/-- The loop of test 2 queues as many items as submissions are accepted. -/
theorem test2_loop_queued {M : Type} (env : Env) (log : List (Event M)) :
    (test2_loop env log).queued = (List.range KZT_MUTEX_TEST_COUNT).countP env.queue_ok := by
  have h := (test2_loop_fold env (List.range KZT_MUTEX_TEST_COUNT) ⟨0, 0, log⟩).2.2
  simpa [test2_loop] using h

/-! ## The paths of test 1 -/

/-- The five ways `kzt_mutex_test1` ends once its allocations succeeded and
the caller's `mutex_enter` returned with the mutex in state `m`. -/
theorem test1_paths {M : Type} (ops : MutexOps M) (env : Env) (m : M)
    (hk : env.kmalloc_ok = true) (hw : env.wq_ok = true)
    (h : ops.mutex_enter env.current ops.mutex_init = some m) :
    kzt_mutex_test1 ops env =
      if env.queue_ok 0 = false then
        ⟨some (-EINVAL),
          [.kmalloc true, .create_workqueue true, .mutex_init, .mutex_enter env.current,
           .queue_work 0 false, .mutex_exit env.current,
           .mutex_destroy (caller_mutex_exit ops env.current (test1_priv env m)).mp_mtx,
           .destroy_workqueue, .kfree]⟩
      else if (test1_first_run ops env m).mp.mp_rc ≠ -EBUSY then
        ⟨some (-EINVAL),
          [.kmalloc true, .create_workqueue true, .mutex_init, .mutex_enter env.current,
           .queue_work 0 true, .flush_workqueue, .mutex_exit env.current,
           .mutex_destroy (test1_released ops env m).mp_mtx, .destroy_workqueue, .kfree]⟩
      else if env.queue_ok 1 = false then
        ⟨some (-EINVAL),
          [.kmalloc true, .create_workqueue true, .mutex_init, .mutex_enter env.current,
           .queue_work 0 true, .flush_workqueue, .mutex_exit env.current,
           .kzt_vprint ⟨KZT_MUTEX_TEST1_NAME, "%s",
              [.str "mutex_trylock() correctly failed when mutex held\n"]⟩,
           .queue_work 1 false,
           .mutex_destroy (test1_released ops env m).mp_mtx, .destroy_workqueue, .kfree]⟩
      else if (test1_second_run ops env m).mp.mp_rc ≠ 0 then
        ⟨some (-EINVAL),
          [.kmalloc true, .create_workqueue true, .mutex_init, .mutex_enter env.current,
           .queue_work 0 true, .flush_workqueue, .mutex_exit env.current,
           .kzt_vprint ⟨KZT_MUTEX_TEST1_NAME, "%s",
              [.str "mutex_trylock() correctly failed when mutex held\n"]⟩,
           .queue_work 1 true, .flush_workqueue,
           .mutex_destroy (test1_second_run ops env m).mp.mp_mtx, .destroy_workqueue,
           .kfree]⟩
      else
        ⟨some 0,
          [.kmalloc true, .create_workqueue true, .mutex_init, .mutex_enter env.current,
           .queue_work 0 true, .flush_workqueue, .mutex_exit env.current,
           .kzt_vprint ⟨KZT_MUTEX_TEST1_NAME, "%s",
              [.str "mutex_trylock() correctly failed when mutex held\n"]⟩,
           .queue_work 1 true, .flush_workqueue,
           .kzt_vprint ⟨KZT_MUTEX_TEST1_NAME, "%s",
              [.str "mutex_trylock() correctly succeeded when mutex unheld\n"]⟩,
           .mutex_destroy (test1_second_run ops env m).mp.mp_mtx, .destroy_workqueue,
           .kfree]⟩ := by
  have r1 := test1_first_run_returns ops env m
  have r2 := test1_second_run_returns ops env m
  have hrel : (test1_released ops env m).mp_rc = (test1_first_run ops env m).mp.mp_rc := rfl
  simp only [kzt_mutex_test1, test1_first_phase, test1_check_first, test1_second_phase,
    test1_check_second, hk, hw, h, r1, r2, hrel, test1_out]
  by_cases q0 : env.queue_ok 0 = true <;> by_cases q1 : env.queue_ok 1 = true <;>
    by_cases a : (test1_first_run ops env m).mp.mp_rc = -EBUSY <;>
    by_cases b : (test1_second_run ops env m).mp.mp_rc = 0 <;>
    simp [q0, q1, a, b]

/-! ## Diagnostics -/

theorem test1_vprint_names {M : Type} (ops : MutexOps M) (env : Env) :
    ∀ n ∈ vprint_names (kzt_mutex_test1 ops env).log, n = KZT_MUTEX_TEST1_NAME := by
  by_cases hk : env.kmalloc_ok = true
  · by_cases hw : env.wq_ok = true
    · cases h : ops.mutex_enter env.current ops.mutex_init with
      | none => simp [kzt_mutex_test1, hk, hw, h, vprint_names]
      | some m =>
        rw [test1_paths ops env m hk hw h]
        split_ifs <;> simp [vprint_names]
    · simp [kzt_mutex_test1, hk, hw, vprint_names]
  · simp [kzt_mutex_test1, hk, vprint_names]

/-- The shape of the log of a returning `kzt_mutex_test2` whose allocations
succeeded: the three initial calls, the submissions with their diagnostics,
the flush, one diagnostic about the counter the flush left, and the three
releases. -/
theorem test2_log_shape {M : Type} (ops : MutexOps M) (env : Env)
    (hk : env.kmalloc_ok = true) (hw : env.wq_ok = true) (r : Int)
    (h : (kzt_mutex_test2 ops env).rc = some r) :
    ∃ mp seg msg, test2_flushed ops env = some mp ∧ loop_segment seg ∧
      msg.name = KZT_MUTEX_TEST2_NAME ∧ Arg.int mp.mp_rc ∈ msg.args ∧
      (kzt_mutex_test2 ops env).log =
        [.kmalloc true, .create_workqueue true, .mutex_init] ++ seg ++
        [.flush_workqueue, .kzt_vprint msg, .mutex_destroy mp.mp_mtx,
         .destroy_workqueue, .kfree] := by
  obtain ⟨seg, hseg, hs⟩ := test2_loop_log (M := M) env test2_log0
  cases hf : test2_flushed ops env with
  | none => simp [kzt_mutex_test2, hk, hw, hf] at h
  | some mp =>
    by_cases hc : mp.mp_rc = KZT_MUTEX_TEST_COUNT
    · refine ⟨mp, seg, ⟨KZT_MUTEX_TEST2_NAME,
        "%d racing threads correctly entered/exited the mutex %d times\n",
        [.int env.ncpus, .int mp.mp_rc]⟩, rfl, hs, rfl, by simp, ?_⟩
      simp only [kzt_mutex_test2, hk, hw, hf, test2_check, hseg]
      simp [hc, test2_log0]
    · refine ⟨mp, seg, ⟨KZT_MUTEX_TEST2_NAME,
        "%d racing threads only processed %d/%d mutex work items\n",
        [.int env.ncpus, .int mp.mp_rc, .int KZT_MUTEX_TEST_COUNT]⟩, rfl, hs, rfl,
        by simp, ?_⟩
      simp only [kzt_mutex_test2, hk, hw, hf, test2_check, hseg]
      simp [hc, test2_log0]

theorem test2_vprint_names {M : Type} (ops : MutexOps M) (env : Env) :
    ∀ n ∈ vprint_names (kzt_mutex_test2 ops env).log, n = KZT_MUTEX_TEST2_NAME := by
  obtain ⟨seg, hseg, hs⟩ := test2_loop_log (M := M) env test2_log0
  by_cases hk : env.kmalloc_ok = true
  · by_cases hw : env.wq_ok = true
    · cases hf : test2_flushed ops env with
      | none =>
        intro n hn
        simp only [kzt_mutex_test2, hk, hw, hf, hseg, vprint_names_append] at hn
        simp [vprint_names, test2_log0] at hn
        rw [vprint_names_append] at hn
        simp [vprint_names] at hn
        exact hs.1 n hn
      | some mp =>
        intro n hn
        obtain ⟨r, hr⟩ : ∃ r, (kzt_mutex_test2 ops env).rc = some r := by
          simp only [kzt_mutex_test2, hk, hw, hf, test2_check]
          split_ifs <;> simp
        obtain ⟨mp2, seg2, msg, -, hs2, hname, -, hlog⟩ :=
          test2_log_shape ops env hk hw r hr
        rw [hlog] at hn
        simp [vprint_names_append, vprint_names] at hn
        rcases hn with hn | hn
        · exact hs2.1 n hn
        · rw [hn, hname]
    · simp [kzt_mutex_test2, hk, hw, vprint_names]
  · simp [kzt_mutex_test2, hk, vprint_names]

theorem test3_vprint_names {M : Type} (ops : MutexOps M) (env : Env) :
    ∀ n ∈ vprint_names (kzt_mutex_test3 ops env).log, n = KZT_MUTEX_TEST3_NAME := by
  cases h : ops.mutex_enter env.current ops.mutex_init with
  | none => simp [kzt_mutex_test3, h, vprint_names]
  | some m =>
    simp only [kzt_mutex_test3, h]
    cases h1 : ops.mutex_owned env.current m <;>
      cases h2 : ops.mutex_owned env.current (ops.mutex_exit env.current m) <;>
      simp [vprint_names]

/-- Every `kzt_vprint` call of `kzt_mutex_test4` is tagged with the name of test 3. -/
theorem test4_vprint_names {M : Type} (ops : MutexOps M) (env : Env) :
    ∀ n ∈ vprint_names (kzt_mutex_test4 ops env).log, n = KZT_MUTEX_TEST3_NAME := by
  cases h : ops.mutex_enter env.current ops.mutex_init with
  | none => simp [kzt_mutex_test4, h, vprint_names]
  | some m =>
    simp only [kzt_mutex_test4, h]
    by_cases h1 : some env.current = ops.mutex_owner m
    · cases h2 : ops.mutex_owner (ops.mutex_exit env.current m) <;>
        simp [← h1, h2, vprint_names]
    · simp [h1, vprint_names]

/-- C9, at the failing input (reference mutex, caller task 1):
`kzt_mutex_test4` passes and writes one message, tagged "owned", while
`kzt_mutex_init` registers the test under the name "owner". -/
theorem kzt_mutex_test4_tag_divergence :
    (kzt_mutex_test4 refMutex env_ok).rc = some 0 ∧
    vprint_names (kzt_mutex_test4 refMutex env_ok).log = ["owned"] ∧
    registered_name .test4 = some "owner" := by
  decide

/-- C8, counterexample: with a mutex whose `mutex_tryenter` succeeds while the
mutex is held, `kzt_mutex_test1` gets past its allocations, observes an
outcome other than -EBUSY and returns -EINVAL without a single `kzt_vprint`
call; with the reference mutex and a rejected first submission it returns
-EINVAL without a `kzt_vprint` call as well. -/
theorem kzt_mutex_test1_silent_failure :
    env_ok.kmalloc_ok = true ∧ env_ok.wq_ok = true ∧
    (test1_first_run brokenMutex env_ok (.held 1)).mp.mp_rc ≠ -EBUSY ∧
    (kzt_mutex_test1 brokenMutex env_ok).rc = some (-EINVAL) ∧
    vprint_names (kzt_mutex_test1 brokenMutex env_ok).log = [] ∧
    (kzt_mutex_test1 refMutex env_reject).rc = some (-EINVAL) ∧
    vprint_names (kzt_mutex_test1 refMutex env_reject).log = [] := by
  decide

theorem vprints_append {M : Type} (a b : List (Event M)) :
    vprints (a ++ b) = vprints a ++ vprints b := by
  induction a with
  | nil => rfl
  | cons e a ih => cases e <;> simp [vprints, ih]

/-- The diagnostics of the submission loop of test 2 over the indices `l`:
one "Failed to queue work id" message for every rejected index, in order. -/
theorem test2_loop_vprints {M : Type} (env : Env) (l : List Nat) (st : LoopState M) :
    vprints (l.foldl (test2_loop_body env) st).log =
      vprints st.log ++
      (l.filter (fun i => !env.queue_ok i)).map
        (fun i => (⟨KZT_MUTEX_TEST2_NAME, "Failed to queue work id %d\n",
          [.int (i : Int)]⟩ : Msg)) := by
  induction l generalizing st with
  | nil => simp
  | cons i l ih =>
    simp only [List.foldl_cons]
    rw [ih]
    by_cases hi : env.queue_ok i = true
    · simp [test2_loop_body, hi, vprints_append, vprints]
    · have hi2 : env.queue_ok i = false := by simpa using hi
      simp [test2_loop_body, hi2, vprints_append, vprints]

/-- C8, amended.  What each test writes to `kzt_vprint`, message by message.
`kzt_mutex_test2`, when its allocations succeed and the flush returns, writes
one "Failed to queue work id" message for every rejected submission and, last,
one message that carries `num_online_cpus()` and the observed counter (and the
expected count when they differ).  `kzt_mutex_test3` and `kzt_mutex_test4`,
when the caller's `mutex_enter` returns, write exactly one message: on a
failed first check the pid that should own the mutex and the pid that does,
on a failed second check the pid that owns it, otherwise the "Correct"
message.  So every returning invocation of these three tests has written a
diagnostic.  `kzt_mutex_test1` writes a message exactly for each phase whose
observed outcome was the expected one: none when the first submission is
rejected or the first run does not record -EBUSY, one when the first phase is
as expected and the second is not, two when both are. -/
theorem diagnostics_written {M : Type} (ops : MutexOps M) (env : Env) :
    (env.kmalloc_ok = true → env.wq_ok = true →
      ∀ mp, test2_flushed ops env = some mp →
        vprints (kzt_mutex_test2 ops env).log =
          ((List.range KZT_MUTEX_TEST_COUNT).filter (fun i => !env.queue_ok i)).map
            (fun i => (⟨KZT_MUTEX_TEST2_NAME, "Failed to queue work id %d\n",
              [.int (i : Int)]⟩ : Msg)) ++
          [if mp.mp_rc = KZT_MUTEX_TEST_COUNT then
              (⟨KZT_MUTEX_TEST2_NAME,
                "%d racing threads correctly entered/exited the mutex %d times\n",
                [.int env.ncpus, .int mp.mp_rc]⟩ : Msg)
            else
              ⟨KZT_MUTEX_TEST2_NAME,
                "%d racing threads only processed %d/%d mutex work items\n",
                [.int env.ncpus, .int mp.mp_rc, .int KZT_MUTEX_TEST_COUNT]⟩]) ∧
    (∀ m, ops.mutex_enter env.current ops.mutex_init = some m →
      vprints (kzt_mutex_test3 ops env).log =
        [if ops.mutex_owned env.current m = false then
            (⟨KZT_MUTEX_TEST3_NAME,
              "Mutex should be owned by pid %d but is owned by pid %d\n",
              [.int (env.pid env.current), .int (owner_pid env (ops.km_owner m))]⟩ : Msg)
          else if ops.mutex_owned env.current (ops.mutex_exit env.current m) = true then
            ⟨KZT_MUTEX_TEST3_NAME,
              "Mutex should not be owned but is owned by pid %d\n",
              [.int (owner_pid env (ops.km_owner (ops.mutex_exit env.current m)))]⟩
          else
            ⟨KZT_MUTEX_TEST3_NAME, "%s", [.str "Correct mutex_owned() behavior\n"]⟩]) ∧
    (∀ m, ops.mutex_enter env.current ops.mutex_init = some m →
      vprints (kzt_mutex_test4 ops env).log =
        [if ops.mutex_owner m ≠ some env.current then
            (⟨KZT_MUTEX_TEST3_NAME,
              "Mutex should be owned by pid %d but is owned by pid %d\n",
              [.int (env.pid env.current), .int (owner_pid env (ops.mutex_owner m))]⟩ : Msg)
          else if ops.mutex_owner (ops.mutex_exit env.current m) ≠ none then
            ⟨KZT_MUTEX_TEST3_NAME,
              "Mutex should not be owned but is owned by pid %d\n",
              [.int (owner_pid env (ops.mutex_owner (ops.mutex_exit env.current m)))]⟩
          else
            ⟨KZT_MUTEX_TEST3_NAME, "%s", [.str "Correct mutex_owner() behavior\n"]⟩]) ∧
    (env.kmalloc_ok = true → env.wq_ok = true →
      ∀ m, ops.mutex_enter env.current ops.mutex_init = some m →
        vprints (kzt_mutex_test1 ops env).log =
          if env.queue_ok 0 = false ∨ (test1_first_run ops env m).mp.mp_rc ≠ -EBUSY then
            []
          else if env.queue_ok 1 = false ∨ (test1_second_run ops env m).mp.mp_rc ≠ 0 then
            [(⟨KZT_MUTEX_TEST1_NAME, "%s",
              [.str "mutex_trylock() correctly failed when mutex held\n"]⟩ : Msg)]
          else
            [⟨KZT_MUTEX_TEST1_NAME, "%s",
              [.str "mutex_trylock() correctly failed when mutex held\n"]⟩,
             ⟨KZT_MUTEX_TEST1_NAME, "%s",
              [.str "mutex_trylock() correctly succeeded when mutex unheld\n"]⟩]) ∧
    (env.kmalloc_ok = true → env.wq_ok = true →
      ∀ r, (kzt_mutex_test2 ops env).rc = some r →
        vprints (kzt_mutex_test2 ops env).log ≠ []) ∧
    (∀ r, (kzt_mutex_test3 ops env).rc = some r →
      vprints (kzt_mutex_test3 ops env).log ≠ []) ∧
    (∀ r, (kzt_mutex_test4 ops env).rc = some r →
      vprints (kzt_mutex_test4 ops env).log ≠ []) := by
  have t2 : env.kmalloc_ok = true → env.wq_ok = true →
      ∀ mp, test2_flushed ops env = some mp →
        vprints (kzt_mutex_test2 ops env).log =
          ((List.range KZT_MUTEX_TEST_COUNT).filter (fun i => !env.queue_ok i)).map
            (fun i => (⟨KZT_MUTEX_TEST2_NAME, "Failed to queue work id %d\n",
              [.int (i : Int)]⟩ : Msg)) ++
          [if mp.mp_rc = KZT_MUTEX_TEST_COUNT then
              (⟨KZT_MUTEX_TEST2_NAME,
                "%d racing threads correctly entered/exited the mutex %d times\n",
                [.int env.ncpus, .int mp.mp_rc]⟩ : Msg)
            else
              ⟨KZT_MUTEX_TEST2_NAME,
                "%d racing threads only processed %d/%d mutex work items\n",
                [.int env.ncpus, .int mp.mp_rc, .int KZT_MUTEX_TEST_COUNT]⟩] := by
    intro hk hw mp hf
    have hloop := test2_loop_vprints (M := M) env (List.range KZT_MUTEX_TEST_COUNT)
      ⟨0, 0, test2_log0⟩
    have hl0 : vprints (test2_log0 (M := M)) = [] := rfl
    simp only [hl0, List.nil_append] at hloop
    have hloop2 : vprints (test2_loop (M := M) env test2_log0).log = _ := hloop
    simp only [kzt_mutex_test2, hk, hw, hf, test2_check, Bool.not_true, Bool.false_eq_true,
      if_false]
    by_cases hc : mp.mp_rc = KZT_MUTEX_TEST_COUNT
    · simp only [hc, if_true, vprints_append, hloop2]
      simp [vprints]
    · simp only [hc, if_false, vprints_append, hloop2]
      simp [vprints]
  have t3 : ∀ m, ops.mutex_enter env.current ops.mutex_init = some m →
      vprints (kzt_mutex_test3 ops env).log =
        [if ops.mutex_owned env.current m = false then
            (⟨KZT_MUTEX_TEST3_NAME,
              "Mutex should be owned by pid %d but is owned by pid %d\n",
              [.int (env.pid env.current), .int (owner_pid env (ops.km_owner m))]⟩ : Msg)
          else if ops.mutex_owned env.current (ops.mutex_exit env.current m) = true then
            ⟨KZT_MUTEX_TEST3_NAME,
              "Mutex should not be owned but is owned by pid %d\n",
              [.int (owner_pid env (ops.km_owner (ops.mutex_exit env.current m)))]⟩
          else
            ⟨KZT_MUTEX_TEST3_NAME, "%s", [.str "Correct mutex_owned() behavior\n"]⟩] := by
    intro m h
    simp only [kzt_mutex_test3, h]
    cases h1 : ops.mutex_owned env.current m <;>
      cases h2 : ops.mutex_owned env.current (ops.mutex_exit env.current m) <;>
      simp [vprints]
  have t4 : ∀ m, ops.mutex_enter env.current ops.mutex_init = some m →
      vprints (kzt_mutex_test4 ops env).log =
        [if ops.mutex_owner m ≠ some env.current then
            (⟨KZT_MUTEX_TEST3_NAME,
              "Mutex should be owned by pid %d but is owned by pid %d\n",
              [.int (env.pid env.current), .int (owner_pid env (ops.mutex_owner m))]⟩ : Msg)
          else if ops.mutex_owner (ops.mutex_exit env.current m) ≠ none then
            ⟨KZT_MUTEX_TEST3_NAME,
              "Mutex should not be owned but is owned by pid %d\n",
              [.int (owner_pid env (ops.mutex_owner (ops.mutex_exit env.current m)))]⟩
          else
            ⟨KZT_MUTEX_TEST3_NAME, "%s", [.str "Correct mutex_owner() behavior\n"]⟩] := by
    intro m h
    simp only [kzt_mutex_test4, h]
    by_cases h1 : some env.current = ops.mutex_owner m
    · have h1b : ops.mutex_owner m = some env.current := h1.symm
      cases h2 : ops.mutex_owner (ops.mutex_exit env.current m) <;>
        simp [h1b, vprints]
    · have h1b : ¬ ops.mutex_owner m = some env.current := fun e => h1 e.symm
      simp [h1, h1b, vprints]
  refine ⟨t2, t3, t4, ?_, ?_, ?_, ?_⟩
  · intro hk hw m h
    rw [test1_paths ops env m hk hw h]
    by_cases q0 : env.queue_ok 0 = true <;> by_cases q1 : env.queue_ok 1 = true <;>
      by_cases a : (test1_first_run ops env m).mp.mp_rc = -EBUSY <;>
      by_cases b : (test1_second_run ops env m).mp.mp_rc = 0 <;>
      simp [q0, q1, a, b, vprints]
  · intro hk hw r hr
    cases hf : test2_flushed ops env with
    | none => simp [kzt_mutex_test2, hk, hw, hf] at hr
    | some mp =>
      rw [t2 hk hw mp hf]
      simp
  · intro r hr
    cases h : ops.mutex_enter env.current ops.mutex_init with
    | none => simp [kzt_mutex_test3, h] at hr
    | some m =>
      rw [t3 m h]
      simp
  · intro r hr
    cases h : ops.mutex_enter env.current ops.mutex_init with
    | none => simp [kzt_mutex_test4, h] at hr
    | some m =>
      rw [t4 m h]
      simp

/-- Witness of the amended C8: the reference mutex with every allocation and
submission succeeding; test 1 has written its two messages. -/
theorem diagnostics_written_witness :
    env_ok.kmalloc_ok = true ∧ env_ok.wq_ok = true ∧
    refMutex.mutex_enter env_ok.current refMutex.mutex_init = some (.held 1) ∧
    vprints (kzt_mutex_test1 refMutex env_ok).log =
      [⟨KZT_MUTEX_TEST1_NAME, "%s",
        [.str "mutex_trylock() correctly failed when mutex held\n"]⟩,
       ⟨KZT_MUTEX_TEST1_NAME, "%s",
        [.str "mutex_trylock() correctly succeeded when mutex unheld\n"]⟩] :=
  ⟨by decide, by decide, by decide,
    ((diagnostics_written refMutex env_ok).2.2.2.1 (by decide) (by decide) (.held 1)
      (by decide)).trans (by decide)⟩

/-! ## Resources -/

/-- C7: the resources of `kzt_mutex_test1` and `kzt_mutex_test2` (private
block, workqueue, initialised mutex).  If `kmalloc` fails the test returns
-ENOMEM and has acquired nothing.  If the creation of the workqueue fails it
returns -ENOMEM having freed the private block, without a call of
`mutex_destroy` or `destroy_workqueue`.  On every later path that returns
(rejected submission and outcome mismatch included) it has called
`mutex_destroy`, `destroy_workqueue` and `kfree` once each.  On every
returning path the replay of the log from the empty set of resources never
releases a resource that is not held and ends with the empty set. -/
theorem resources_released {M : Type} (ops : MutexOps M) (env : Env) :
    (env.kmalloc_ok = false →
      kzt_mutex_test1 ops env = ⟨some (-ENOMEM), [.kmalloc false]⟩ ∧
      kzt_mutex_test2 ops env = ⟨some (-ENOMEM), [.kmalloc false]⟩) ∧
    (env.kmalloc_ok = true → env.wq_ok = false →
      kzt_mutex_test1 ops env
        = ⟨some (-ENOMEM), [.kmalloc true, .create_workqueue false, .kfree]⟩ ∧
      kzt_mutex_test2 ops env
        = ⟨some (-ENOMEM), [.kmalloc true, .create_workqueue false, .kfree]⟩) ∧
    (env.kmalloc_ok = true → env.wq_ok = true →
      ∀ r, (kzt_mutex_test1 ops env).rc = some r →
        count_mutex_destroy (kzt_mutex_test1 ops env).log = 1 ∧
        count_destroy_workqueue (kzt_mutex_test1 ops env).log = 1 ∧
        count_kfree (kzt_mutex_test1 ops env).log = 1) ∧
    (env.kmalloc_ok = true → env.wq_ok = true →
      ∀ r, (kzt_mutex_test2 ops env).rc = some r →
        count_mutex_destroy (kzt_mutex_test2 ops env).log = 1 ∧
        count_destroy_workqueue (kzt_mutex_test2 ops env).log = 1 ∧
        count_kfree (kzt_mutex_test2 ops env).log = 1) ∧
    (∀ r, (kzt_mutex_test1 ops env).rc = some r →
      Live.replay ⟨false, false, false⟩ (kzt_mutex_test1 ops env).log
        = some ⟨false, false, false⟩) ∧
    (∀ r, (kzt_mutex_test2 ops env).rc = some r →
      Live.replay ⟨false, false, false⟩ (kzt_mutex_test2 ops env).log
        = some ⟨false, false, false⟩) := by
  have t1 : env.kmalloc_ok = true → env.wq_ok = true →
      ∀ r, (kzt_mutex_test1 ops env).rc = some r →
        (count_mutex_destroy (kzt_mutex_test1 ops env).log = 1 ∧
          count_destroy_workqueue (kzt_mutex_test1 ops env).log = 1 ∧
          count_kfree (kzt_mutex_test1 ops env).log = 1) ∧
        Live.replay ⟨false, false, false⟩ (kzt_mutex_test1 ops env).log
          = some ⟨false, false, false⟩ := by
    intro hk hw r hr
    cases hm : ops.mutex_enter env.current ops.mutex_init with
    | none => simp [kzt_mutex_test1, hk, hw, hm] at hr
    | some m =>
      rw [test1_paths ops env m hk hw hm]
      split_ifs <;>
        simp [count_mutex_destroy, count_destroy_workqueue, count_kfree, Live.replay,
          Live.apply]
  have t2 : env.kmalloc_ok = true → env.wq_ok = true →
      ∀ r, (kzt_mutex_test2 ops env).rc = some r →
        (count_mutex_destroy (kzt_mutex_test2 ops env).log = 1 ∧
          count_destroy_workqueue (kzt_mutex_test2 ops env).log = 1 ∧
          count_kfree (kzt_mutex_test2 ops env).log = 1) ∧
        Live.replay ⟨false, false, false⟩ (kzt_mutex_test2 ops env).log
          = some ⟨false, false, false⟩ := by
    intro hk hw r hr
    obtain ⟨mp, seg, msg, -, hs, -, -, hlog⟩ := test2_log_shape ops env hk hw r hr
    obtain ⟨-, s2, s3, s4, s5⟩ := hs
    rw [hlog]
    refine ⟨⟨?_, ?_, ?_⟩, ?_⟩
    · simp [count_mutex_destroy_append, count_mutex_destroy, s2]
    · simp [count_destroy_workqueue_append, count_destroy_workqueue, s3]
    · simp [count_kfree_append, count_kfree, s4]
    · rw [Live.replay_append, Live.replay_append]
      have e0 : Live.replay (M := M) ⟨false, false, false⟩
          [.kmalloc true, .create_workqueue true, .mutex_init] = some ⟨true, true, true⟩ := rfl
      rw [e0]
      simp only [s5]
      rfl
  refine ⟨?_, ?_, ?_, ?_, ?_, ?_⟩
  · intro hk
    simp [kzt_mutex_test1, kzt_mutex_test2, hk]
  · intro hk hw
    simp [kzt_mutex_test1, kzt_mutex_test2, hk, hw]
  · intro hk hw r hr
    exact (t1 hk hw r hr).1
  · intro hk hw r hr
    exact (t2 hk hw r hr).1
  · intro r hr
    by_cases hk : env.kmalloc_ok = true
    · by_cases hw : env.wq_ok = true
      · exact (t1 hk hw r hr).2
      · simp [kzt_mutex_test1, hk, hw, Live.replay, Live.apply]
    · simp [kzt_mutex_test1, hk, Live.replay, Live.apply]
  · intro r hr
    by_cases hk : env.kmalloc_ok = true
    · by_cases hw : env.wq_ok = true
      · exact (t2 hk hw r hr).2
      · simp [kzt_mutex_test2, hk, hw, Live.replay, Live.apply]
    · simp [kzt_mutex_test2, hk, Live.replay, Live.apply]

/-- Witness of C7: the reference mutex with every allocation and submission
succeeding; test 1 returns 0 and releases its three resources once each. -/
theorem resources_released_witness :
    env_ok.kmalloc_ok = true ∧ env_ok.wq_ok = true ∧
    (kzt_mutex_test1 refMutex env_ok).rc = some 0 ∧
    (count_mutex_destroy (kzt_mutex_test1 refMutex env_ok).log = 1 ∧
      count_destroy_workqueue (kzt_mutex_test1 refMutex env_ok).log = 1 ∧
      count_kfree (kzt_mutex_test1 refMutex env_ok).log = 1) :=
  ⟨by decide, by decide, by decide,
    (resources_released refMutex env_ok).2.2.1 (by decide) (by decide) 0 (by decide)⟩

/-! ## The workqueue of test 2: counting -/

theorem wrap_int_of_range (x : Int) (h0 : 0 ≤ x) (h1 : x ≤ INT_MAX) : wrap_int x = x := by
  unfold wrap_int
  unfold INT_MAX at h1
  omega

theorem tally_set (f : PC → Nat) (pcs : List PC) (i : Nat) (a b : PC)
    (h : pcs[i]? = some a) :
    tally f (pcs.set i b) + f a = tally f pcs + f b := by
  induction pcs generalizing i with
  | nil => simp at h
  | cons x xs ih =>
    cases i with
    | zero =>
      simp at h
      subst h
      simp [tally]
      omega
    | succ j =>
      simp at h
      have := ih j h
      simp [tally] at this ⊢
      omega

theorem tally_stored_le (pcs : List PC) : tally PC.stored pcs ≤ pcs.length := by
  induction pcs with
  | nil => simp [tally]
  | cons x xs ih =>
    have hx : PC.stored x ≤ 1 := by cases x <;> simp [PC.stored]
    simp [tally] at ih ⊢
    omega

theorem tally_zero (f : PC → Nat) (pcs : List PC) (h : tally f pcs = 0) :
    ∀ pc ∈ pcs, f pc = 0 := by
  induction pcs with
  | nil => simp
  | cons x xs ih =>
    simp [tally] at h
    intro pc hpc
    simp at hpc
    rcases hpc with rfl | hpc
    · exact h.1
    · exact ih (by simpa [tally] using h.2) pc hpc

theorem tally_replicate (f : PC → Nat) (n : Nat) (pc : PC) :
    tally f (List.replicate n pc) = n * f pc := by
  simp [tally]

theorem tally_stored_finished {M : Type} (s : Sys M) (h : s.finished = true) :
    tally PC.stored s.pcs = s.pcs.length := by
  have h2 : ∀ pc ∈ s.pcs, pc = PC.done := by
    simpa [Sys.finished] using h
  generalize s.pcs = l at h2
  induction l with
  | nil => simp [tally]
  | cons x xs ih =>
    have hx : x = PC.done := h2 x (by simp)
    have := ih (fun pc hpc => h2 pc (by simp [hpc]))
    subst hx
    simp [tally, PC.stored] at this ⊢
    omega

/-- What a step of the workqueue is made of. -/
theorem Sys.step_some {M : Type} {ops : MutexOps M} {thr : Nat → Tid} {i : Nat}
    {s s2 : Sys M} (h : Sys.step ops thr i s = some s2) :
    ∃ pc mp pc2 evs, s.pcs[i]? = some pc ∧
      kzt_mutex_test2_work_step ops (thr i) s.mp pc = some (mp, pc2, evs) ∧
      s2 = ⟨mp, s.pcs.set i pc2⟩ := by
  unfold Sys.step at h
  cases hp : s.pcs[i]? with
  | none => simp [hp] at h
  | some pc =>
    cases hw : kzt_mutex_test2_work_step ops (thr i) s.mp pc with
    | none => simp [hp, hw] at h
    | some r =>
      obtain ⟨mp, pc2, evs⟩ := r
      simp [hp, hw] at h
      exact ⟨pc, mp, pc2, evs, rfl, hw, h.symm⟩

theorem Sys.step_length {M : Type} {ops : MutexOps M} {thr : Nat → Tid} {i : Nat}
    {s s2 : Sys M} (h : Sys.step ops thr i s = some s2) :
    s2.pcs.length = s.pcs.length := by
  obtain ⟨pc, mp, pc2, evs, -, -, rfl⟩ := Sys.step_some h
  simp

/-- A property kept by every step holds after every interleaving. -/
theorem Sys.run_induction {M : Type} {ops : MutexOps M} {thr : Nat → Tid}
    (P : Sys M → Prop)
    (hstep : ∀ i s s2, P s → Sys.step ops thr i s = some s2 → P s2)
    (sched : List Nat) (s s2 : Sys M) (h0 : P s)
    (h : Sys.run ops thr sched s = some s2) : P s2 := by
  induction sched generalizing s with
  | nil =>
    simp [Sys.run] at h
    exact h ▸ h0
  | cons i is ih =>
    simp only [Sys.run] at h
    cases hs : Sys.step ops thr i s with
    | none => simp [hs] at h
    | some s1 =>
      simp only [hs] at h
      exact ih s1 (hstep i s s1 h0 hs) h

theorem Sys.run_length {M : Type} {ops : MutexOps M} {thr : Nat → Tid}
    (sched : List Nat) (a b : Sys M) (h : Sys.run ops thr sched a = some b) :
    b.pcs.length = a.pcs.length := by
  induction sched generalizing a with
  | nil =>
    simp [Sys.run] at h
    rw [h]
  | cons i is ih =>
    simp only [Sys.run] at h
    cases hs : Sys.step ops thr i a with
    | none => simp [hs] at h
    | some c =>
      simp only [hs] at h
      rw [ih c h, Sys.step_length hs]

theorem bounded_step {M : Type} {ops : MutexOps M} {thr : Nat → Tid} (i : Nat)
    (s s2 : Sys M) (hb : Bounded s) (h : Sys.step ops thr i s = some s2) :
    Bounded s2 := by
  obtain ⟨pc, mp, pc2, evs, hp, hw, rfl⟩ := Sys.step_some h
  obtain ⟨hlen, h0, h1, h2⟩ := hb
  obtain ⟨smp, pcs⟩ := s
  obtain ⟨magic, file, mtx, rc0⟩ := smp
  simp only at hp hw hlen h0 h1 h2
  have hmem : pc ∈ pcs := List.getElem?_mem hp
  have hle := tally_stored_le (pcs.set i pc2)
  simp only [List.length_set] at hle
  have ht := tally_set PC.stored pcs i pc pc2 hp
  -- what is left to show once the new counter and the new position are known
  have fin : ∀ (m2 : M) (rcn : Int), 0 ≤ rcn →
      rcn ≤ tally PC.stored (pcs.set i pc2) →
      tally PC.stored pcs ≤ tally PC.stored (pcs.set i pc2) →
      (∀ rc, PC.local_rc pc2 = some rc →
        0 ≤ rc ∧ rc ≤ (tally PC.stored (pcs.set i pc2) : Int)) →
      Bounded (⟨⟨magic, file, m2, rcn⟩, pcs.set i pc2⟩ : Sys M) := by
    intro m2 rcn hr0 hr1 hmono hnew
    refine ⟨by simpa using hlen, hr0, hr1, ?_⟩
    intro q hq rc hrc
    rcases List.mem_or_eq_of_mem_set hq with hq | rfl
    · have := h2 q hq rc hrc
      exact ⟨this.1, by simp only; omega⟩
    · exact hnew rc hrc
  cases pc with
  | assert =>
    simp only [kzt_mutex_test2_work_step] at hw
    cases ha : ASSERT (magic == KZT_MUTEX_TEST_MAGIC) with
    | none =>
      simp [ha] at hw
      obtain ⟨rfl, rfl, -⟩ := hw
      simp only [PC.stored] at ht
      exact fin _ _ h0 (by omega) (by omega) (by simp [PC.local_rc])
    | some f =>
      simp [ha] at hw
      obtain ⟨rfl, rfl, -⟩ := hw
      simp only [PC.stored] at ht
      exact fin _ _ h0 (by omega) (by omega) (by simp [PC.local_rc])
  | enter =>
    simp only [kzt_mutex_test2_work_step] at hw
    cases he : ops.mutex_enter (thr i) mtx with
    | none => simp [he] at hw
    | some m =>
      simp [he] at hw
      obtain ⟨rfl, rfl, -⟩ := hw
      simp only [PC.stored] at ht
      exact fin _ _ h0 (by omega) (by omega) (by simp [PC.local_rc])
  | load =>
    simp [kzt_mutex_test2_work_step] at hw
    obtain ⟨rfl, rfl, -⟩ := hw
    simp only [PC.stored] at ht
    refine fin _ _ h0 (by omega) (by omega) ?_
    intro rc hrc
    simp [PC.local_rc] at hrc
    subst hrc
    exact ⟨h0, by omega⟩
  | sleep r =>
    simp [kzt_mutex_test2_work_step] at hw
    obtain ⟨rfl, rfl, -⟩ := hw
    simp only [PC.stored] at ht
    have hr := h2 _ hmem r rfl
    refine fin _ _ h0 (by omega) (by omega) ?_
    intro rc hrc
    simp [PC.local_rc] at hrc
    subst hrc
    exact ⟨hr.1, by omega⟩
  | store r =>
    simp [kzt_mutex_test2_work_step] at hw
    obtain ⟨rfl, rfl, -⟩ := hw
    simp only [PC.stored] at ht
    have hr := h2 _ hmem r rfl
    have hwrap : wrap_int (r + 1) = r + 1 :=
      wrap_int_of_range _ (by omega) (by omega)
    rw [hwrap]
    exact fin _ _ (by omega) (by omega) (by omega) (by simp [PC.local_rc])
  | exit =>
    simp [kzt_mutex_test2_work_step] at hw
    obtain ⟨rfl, rfl, -⟩ := hw
    simp only [PC.stored] at ht
    exact fin _ _ h0 (by omega) (by omega) (by simp [PC.local_rc])
  | done => simp [kzt_mutex_test2_work_step] at hw
  | fault => simp [kzt_mutex_test2_work_step] at hw

theorem bounded_start {M : Type} (mp : mutex_priv M) (n : Nat)
    (hn : (n : Int) ≤ INT_MAX) (h0 : mp.mp_rc = 0) : Bounded (Sys.start mp n) := by
  refine ⟨by simpa [Sys.start] using hn, by simp [Sys.start, h0], ?_, ?_⟩
  · simp [Sys.start, h0]
  · intro pc hpc rc hrc
    simp [Sys.start] at hpc
    rw [hpc.2] at hrc
    simp [PC.local_rc] at hrc

/-- Whatever the mutex does, a completed flush leaves a counter between 0 and
the number of items that ran. -/
theorem flush_workqueue_le {M : Type} (ops : MutexOps M) (thr : Nat → Tid)
    (sched : List Nat) (mp mp2 : mutex_priv M) (n : Nat)
    (hn : (n : Int) ≤ INT_MAX) (h0 : mp.mp_rc = 0)
    (h : flush_workqueue ops thr sched mp n = some mp2) :
    0 ≤ mp2.mp_rc ∧ mp2.mp_rc ≤ n := by
  unfold flush_workqueue at h
  cases hr : Sys.run ops thr sched (Sys.start mp n) with
  | none => simp [hr] at h
  | some s =>
    simp only [hr] at h
    by_cases hf : s.finished = true
    · simp [hf] at h
      subst h
      have hb : Bounded s :=
        Sys.run_induction Bounded (fun i s s2 => bounded_step i s s2) sched _ s
          (bounded_start mp n hn h0) hr
      have hl : s.pcs.length = n := by
        rw [Sys.run_length sched _ s hr]
        simp [Sys.start]
      obtain ⟨-, b0, b1, -⟩ := hb
      rw [tally_stored_finished s hf, hl] at b1
      exact ⟨b0, b1⟩
    · simp [hf] at h

theorem tally_loaded_le_inside (pcs : List PC) :
    tally PC.loaded pcs ≤ tally PC.inside pcs := by
  induction pcs with
  | nil => simp [tally]
  | cons x xs ih =>
    have hx : PC.loaded x ≤ PC.inside x := by cases x <;> simp [PC.loaded, PC.inside]
    simp [tally] at ih ⊢
    omega

theorem local_rc_none_of_loaded (pc : PC) (h : PC.loaded pc = 0) :
    PC.local_rc pc = none := by
  cases pc <;> simp [PC.loaded, PC.local_rc] at h ⊢

theorem exclusive_step {thr : Nat → Tid} (i : Nat)
    (s s2 : Sys KMutex) (hb : Exclusive s) (h : Sys.step refMutex thr i s = some s2) :
    Exclusive s2 := by
  obtain ⟨pc, mp, pc2, evs, hp, hw, rfl⟩ := Sys.step_some h
  obtain ⟨hlen, hmagic, hin, hrc, hloc, hnf⟩ := hb
  obtain ⟨smp, pcs⟩ := s
  obtain ⟨magic, file, mtx, rc0⟩ := smp
  simp only at hp hw hlen hmagic hin hrc hloc hnf
  subst hmagic
  have hmem : pc ∈ pcs := List.getElem?_mem hp
  have hle := tally_stored_le (pcs.set i pc2)
  simp only [List.length_set] at hle
  have hts := tally_set PC.stored pcs i pc pc2 hp
  have hti := tally_set PC.inside pcs i pc pc2 hp
  have htl := tally_set PC.loaded pcs i pc pc2 hp
  have hli := tally_loaded_le_inside pcs
  have hin1 : tally PC.inside pcs ≤ 1 := by
    rw [hin]
    split_ifs <;> omega
  have fin : ∀ (m2 : KMutex) (rcn : Int),
      tally PC.inside (pcs.set i pc2) = (if m2 = KMutex.unheld then 0 else 1) →
      rcn = tally PC.stored (pcs.set i pc2) →
      (∀ q ∈ pcs.set i pc2, ∀ rc, PC.local_rc q = some rc → rc = rcn) →
      pc2 ≠ PC.fault →
      Exclusive (⟨⟨KZT_MUTEX_TEST_MAGIC, file, m2, rcn⟩, pcs.set i pc2⟩ : Sys KMutex) := by
    intro m2 rcn a b c d
    refine ⟨by simpa using hlen, rfl, a, b, c, ?_⟩
    intro q hq
    rcases List.mem_or_eq_of_mem_set hq with hq | rfl
    · exact hnf q hq
    · exact d
  have keep : (∀ rc, PC.local_rc pc2 = some rc → rc = rc0) →
      ∀ q ∈ pcs.set i pc2, ∀ rc, PC.local_rc q = some rc → rc = rc0 := by
    intro hnew q hq rc hq2
    rcases List.mem_or_eq_of_mem_set hq with hq | rfl
    · exact hloc q hq rc hq2
    · exact hnew rc hq2
  have hass : ASSERT (KZT_MUTEX_TEST_MAGIC == KZT_MUTEX_TEST_MAGIC) = none := by
    simp [ASSERT]
  cases pc with
  | assert =>
    simp only [kzt_mutex_test2_work_step, hass] at hw
    simp at hw
    obtain ⟨rfl, rfl, -⟩ := hw
    simp only [PC.stored, PC.inside] at hts hti
    exact fin _ _ (by omega) (by omega) (keep (by simp [PC.local_rc])) (by simp)
  | enter =>
    simp only [kzt_mutex_test2_work_step] at hw
    cases mtx with
    | held o => simp [refMutex] at hw
    | unheld =>
      simp [refMutex] at hw
      obtain ⟨rfl, rfl, -⟩ := hw
      simp only [PC.stored, PC.inside] at hts hti
      simp at hin
      exact fin _ _ (by simp; omega) (by omega) (keep (by simp [PC.local_rc])) (by simp)
  | load =>
    simp [kzt_mutex_test2_work_step] at hw
    obtain ⟨rfl, rfl, -⟩ := hw
    simp only [PC.stored, PC.inside] at hts hti
    exact fin _ _ (by omega) (by omega) (keep (by simp [PC.local_rc])) (by simp)
  | sleep r =>
    simp [kzt_mutex_test2_work_step] at hw
    obtain ⟨rfl, rfl, -⟩ := hw
    simp only [PC.stored, PC.inside] at hts hti
    have hr := hloc _ hmem r rfl
    exact fin _ _ (by omega) (by omega) (keep (by simp [PC.local_rc, hr])) (by simp)
  | store r =>
    simp [kzt_mutex_test2_work_step] at hw
    obtain ⟨rfl, rfl, -⟩ := hw
    simp only [PC.stored, PC.inside, PC.loaded] at hts hti htl
    have hr := hloc _ hmem r rfl
    have hwrap : wrap_int (r + 1) = r + 1 :=
      wrap_int_of_range _ (by omega) (by omega)
    rw [hwrap]
    refine fin _ _ (by omega) (by omega) ?_ (by simp)
    intro q hq rc hq2
    have hz : tally PC.loaded (pcs.set i PC.exit) = 0 := by omega
    have := local_rc_none_of_loaded q (tally_zero _ _ hz q hq)
    rw [this] at hq2
    simp at hq2
  | exit =>
    simp [kzt_mutex_test2_work_step, refMutex] at hw
    obtain ⟨rfl, rfl, -⟩ := hw
    simp only [PC.stored, PC.inside] at hts hti
    exact fin _ _ (by simp; omega) (by omega) (keep (by simp [PC.local_rc])) (by simp)
  | done => simp [kzt_mutex_test2_work_step] at hw
  | fault => simp [kzt_mutex_test2_work_step] at hw

theorem exclusive_start (file : Nat) (n : Nat) (hn : (n : Int) ≤ INT_MAX) :
    Exclusive (Sys.start ⟨KZT_MUTEX_TEST_MAGIC, file, .unheld, 0⟩ n) := by
  refine ⟨by simpa [Sys.start] using hn, rfl, ?_, ?_, ?_, ?_⟩
  · simp [Sys.start, tally_replicate, PC.inside]
  · simp [Sys.start, tally_replicate, PC.stored]
  · intro pc hpc rc hrc
    simp [Sys.start] at hpc
    rw [hpc.2] at hrc
    simp [PC.local_rc] at hrc
  · intro pc hpc
    simp [Sys.start] at hpc
    rw [hpc.2]
    simp

/-- With the reference mutex, every interleaving that completes `n`
executions started on a counter 0 ends with the counter `n`. -/
theorem run_exact (thr : Nat → Tid) (file : Nat) (n : Nat) (hn : (n : Int) ≤ INT_MAX)
    (sched : List Nat) (s : Sys KMutex)
    (h : Sys.run refMutex thr sched (Sys.start ⟨KZT_MUTEX_TEST_MAGIC, file, .unheld, 0⟩ n)
      = some s)
    (hf : s.finished = true) : s.mp.mp_rc = n := by
  have hb : Exclusive s :=
    Sys.run_induction Exclusive (fun i s s2 => exclusive_step i s s2) sched _ s
      (exclusive_start file n hn) h
  have hl : s.pcs.length = n := by
    rw [Sys.run_length sched _ s h]
    simp [Sys.start]
  obtain ⟨-, -, -, hrc, -, -⟩ := hb
  rw [hrc, tally_stored_finished s hf, hl]

/-! ## The workqueue of test 2: a complete interleaving exists -/

theorem Sys.run_append {M : Type} {ops : MutexOps M} {thr : Nat → Tid}
    (a b : List Nat) (s : Sys M) :
    Sys.run ops thr (a ++ b) s =
      match Sys.run ops thr a s with
      | none => none
      | some s2 => Sys.run ops thr b s2 := by
  induction a generalizing s with
  | nil => rfl
  | cons i is ih =>
    simp only [List.cons_append, Sys.run]
    cases Sys.step ops thr i s with
    | none => rfl
    | some s1 => exact ih s1

theorem getElem?_set_same (l : List PC) (k : Nat) (a b : PC) (h : l[k]? = some a) :
    (l.set k b)[k]? = some b := by
  have hk : k < l.length := by
    by_contra hc
    simp [List.getElem?_eq_none (Nat.le_of_not_lt hc)] at h
  exact List.getElem?_set_self hk

theorem Sys.step_at {M : Type} (ops : MutexOps M) (thr : Nat → Tid) (k : Nat)
    (mp mp2 : mutex_priv M) (pcs : List PC) (pc pc2 : PC) (evs : List (Event M))
    (hp : pcs[k]? = some pc)
    (hw : kzt_mutex_test2_work_step ops (thr k) mp pc = some (mp2, pc2, evs)) :
    Sys.step ops thr k ⟨mp, pcs⟩ = some ⟨mp2, pcs.set k pc2⟩ := by
  simp [Sys.step, hp, hw]

/-- One execution taking its six steps in a row on the unheld reference mutex
returns, having added one to the counter and released the mutex. -/
theorem run_solo (thr : Nat → Tid) (file : Nat) (c : Int) (hc0 : 0 ≤ c)
    (hc1 : c + 1 ≤ INT_MAX) (pcs : List PC) (k : Nat) (hp : pcs[k]? = some PC.assert) :
    Sys.run refMutex thr (List.replicate 6 k)
        ⟨⟨KZT_MUTEX_TEST_MAGIC, file, .unheld, c⟩, pcs⟩
      = some ⟨⟨KZT_MUTEX_TEST_MAGIC, file, .unheld, c + 1⟩, pcs.set k .done⟩ := by
  have hass : ASSERT (KZT_MUTEX_TEST_MAGIC == KZT_MUTEX_TEST_MAGIC) = none := by
    simp [ASSERT]
  have hwrap : wrap_int (c + 1) = c + 1 := wrap_int_of_range _ (by omega) hc1
  have w1 : kzt_mutex_test2_work_step refMutex (thr k)
      ⟨KZT_MUTEX_TEST_MAGIC, file, .unheld, c⟩ .assert
      = some (⟨KZT_MUTEX_TEST_MAGIC, file, .unheld, c⟩, .enter, []) := by
    simp only [kzt_mutex_test2_work_step, hass]
  have e1 := Sys.step_at refMutex thr k _ _ pcs _ _ _ hp w1
  have p1 := getElem?_set_same pcs k .assert .enter hp
  have w2 : kzt_mutex_test2_work_step refMutex (thr k)
      ⟨KZT_MUTEX_TEST_MAGIC, file, .unheld, c⟩ .enter
      = some (⟨KZT_MUTEX_TEST_MAGIC, file, .held (thr k), c⟩, .load,
          [.mutex_enter (thr k)]) := rfl
  have e2 := Sys.step_at refMutex thr k _ _ _ _ _ _ p1 w2
  have p2 := getElem?_set_same _ k .enter .load p1
  have w3 : kzt_mutex_test2_work_step refMutex (thr k)
      ⟨KZT_MUTEX_TEST_MAGIC, file, .held (thr k), c⟩ .load
      = some (⟨KZT_MUTEX_TEST_MAGIC, file, .held (thr k), c⟩, .sleep c, []) := rfl
  have e3 := Sys.step_at refMutex thr k _ _ _ _ _ _ p2 w3
  have p3 := getElem?_set_same _ k .load (.sleep c) p2
  have w4 : kzt_mutex_test2_work_step refMutex (thr k)
      ⟨KZT_MUTEX_TEST_MAGIC, file, .held (thr k), c⟩ (.sleep c)
      = some (⟨KZT_MUTEX_TEST_MAGIC, file, .held (thr k), c⟩, .store c, []) := rfl
  have e4 := Sys.step_at refMutex thr k _ _ _ _ _ _ p3 w4
  have p4 := getElem?_set_same _ k (.sleep c) (.store c) p3
  have w5 : kzt_mutex_test2_work_step refMutex (thr k)
      ⟨KZT_MUTEX_TEST_MAGIC, file, .held (thr k), c⟩ (.store c)
      = some (⟨KZT_MUTEX_TEST_MAGIC, file, .held (thr k), c + 1⟩, .exit,
          [.store_rc (c + 1)]) := by
    simp only [kzt_mutex_test2_work_step, hwrap]
  have e5 := Sys.step_at refMutex thr k _ _ _ _ _ _ p4 w5
  have p5 := getElem?_set_same _ k (.store c) .exit p4
  have w6 : kzt_mutex_test2_work_step refMutex (thr k)
      ⟨KZT_MUTEX_TEST_MAGIC, file, .held (thr k), c + 1⟩ .exit
      = some (⟨KZT_MUTEX_TEST_MAGIC, file, .unheld, c + 1⟩, .done,
          [.mutex_exit (thr k)]) := rfl
  have e6 := Sys.step_at refMutex thr k _ _ _ _ _ _ p5 w6
  have hsix : List.replicate 6 k = [k, k, k, k, k, k] := rfl
  rw [hsix]
  simp only [List.set_set] at e2 e3 e4 e5 e6
  simp only [Sys.run, e1, e2, e3, e4, e5, e6]

/-- The state the sequential interleaving reaches after `k` of the `n`
executions: the first `k` have returned, the others have not started, the
counter is `k` and the mutex is free. -/
theorem run_sequential_prefix (thr : Nat → Tid) (file : Nat) (n : Nat)
    (hn : (n : Int) ≤ INT_MAX) (k : Nat) (hk : k ≤ n) :
    ∃ pcs, Sys.run refMutex thr (sequential k)
        (Sys.start ⟨KZT_MUTEX_TEST_MAGIC, file, .unheld, 0⟩ n)
      = some ⟨⟨KZT_MUTEX_TEST_MAGIC, file, .unheld, k⟩, pcs⟩ ∧
      pcs.length = n ∧
      (∀ j, j < k → pcs[j]? = some PC.done) ∧
      (∀ j, k ≤ j → j < n → pcs[j]? = some PC.assert) := by
  induction k with
  | zero =>
    refine ⟨List.replicate n .assert, rfl, by simp, ?_, ?_⟩
    · intro j hj
      omega
    · intro j _ hj
      simp [List.getElem?_replicate, hj]
  | succ k ih =>
    obtain ⟨pcs, hrun, hlen, hdone, hnew⟩ := ih (by omega)
    have hp : pcs[k]? = some PC.assert := hnew k (le_refl k) (by omega)
    have hsolo := run_solo thr file (k : Int) (by omega) (by omega) pcs k hp
    refine ⟨pcs.set k .done, ?_, by simpa using hlen, ?_, ?_⟩
    · simp only [sequential, Sys.run_append, hrun, hsolo]
      simp
    · intro j hj
      by_cases hjk : j = k
      · subst hjk
        exact getElem?_set_same pcs j _ _ hp
      · rw [List.getElem?_set_ne (Ne.symm hjk)]
        exact hdone j (by omega)
    · intro j hj1 hj2
      rw [List.getElem?_set_ne (by omega)]
      exact hnew j (by omega) hj2

/-- With the reference mutex, the sequential interleaving completes `n`
executions and leaves the counter `n` and the mutex free. -/
theorem run_sequential (thr : Nat → Tid) (file : Nat) (n : Nat)
    (hn : (n : Int) ≤ INT_MAX) :
    ∃ s, Sys.run refMutex thr (sequential n)
        (Sys.start ⟨KZT_MUTEX_TEST_MAGIC, file, .unheld, 0⟩ n) = some s ∧
      s.finished = true ∧ s.mp = ⟨KZT_MUTEX_TEST_MAGIC, file, .unheld, n⟩ := by
  obtain ⟨pcs, hrun, hlen, hdone, -⟩ := run_sequential_prefix thr file n hn n (le_refl n)
  refine ⟨_, hrun, ?_, rfl⟩
  simp only [Sys.finished, List.all_eq_true]
  intro pc hpc
  obtain ⟨j, hj⟩ := List.mem_iff_getElem?.mp hpc
  have hjn : j < n := by
    obtain ⟨hlt, -⟩ := List.getElem?_eq_some.mp hj
    omega
  rw [hdone j hjn] at hj
  simp at hj
  simp [← hj]

/-- With the reference mutex, the flush along the sequential interleaving
returns with the counter `n`. -/
theorem flush_sequential (thr : Nat → Tid) (file : Nat) (n : Nat)
    (hn : (n : Int) ≤ INT_MAX) :
    flush_workqueue refMutex thr (sequential n)
        ⟨KZT_MUTEX_TEST_MAGIC, file, .unheld, 0⟩ n
      = some ⟨KZT_MUTEX_TEST_MAGIC, file, .unheld, n⟩ := by
  obtain ⟨s, hrun, hfin, hmp⟩ := run_sequential thr file n hn
  simp [flush_workqueue, hrun, hfin, hmp]

/-! ## The workqueue of test 2: no interleaving gets stuck -/

theorem tally_pos (f : PC → Nat) (pcs : List PC) (h : tally f pcs ≠ 0) :
    ∃ pc ∈ pcs, f pc ≠ 0 := by
  by_contra hc
  push_neg at hc
  apply h
  have : ∀ x ∈ pcs.map f, x = 0 := by
    intro x hx
    obtain ⟨pc, hpc, rfl⟩ := List.mem_map.mp hx
    exact hc pc hpc
  exact List.sum_eq_zero_iff.mpr this

/-- With the reference mutex, a state that is not finished has an execution
that can take a step: the holder of the mutex if there is one, any execution
that has not returned otherwise. -/
theorem exclusive_progress (thr : Nat → Tid) (s : Sys KMutex) (hb : Exclusive s)
    (hf : s.finished = false) : ∃ i s2, Sys.step refMutex thr i s = some s2 := by
  obtain ⟨-, hmagic, hin, -, -, hnf⟩ := hb
  obtain ⟨smp, pcs⟩ := s
  obtain ⟨magic, file, mtx, rc0⟩ := smp
  simp only at hmagic hin hnf
  subst hmagic
  have hass : ASSERT (KZT_MUTEX_TEST_MAGIC == KZT_MUTEX_TEST_MAGIC) = none := by
    simp [ASSERT]
  cases mtx with
  | unheld =>
    simp at hin
    have hz := tally_zero _ _ hin
    have : ∃ pc ∈ pcs, pc ≠ PC.done := by
      by_contra hc
      push_neg at hc
      have : Sys.finished (⟨⟨KZT_MUTEX_TEST_MAGIC, file, .unheld, rc0⟩, pcs⟩ : Sys KMutex)
          = true := by
        simp only [Sys.finished, List.all_eq_true]
        intro pc hpc
        simp [hc pc hpc]
      rw [this] at hf
      simp at hf
    obtain ⟨pc, hpc, hnd⟩ := this
    obtain ⟨j, hj⟩ := List.mem_iff_getElem?.mp hpc
    have hi0 := hz pc hpc
    have hnf0 := hnf pc hpc
    cases pc with
    | assert =>
      have w1 : kzt_mutex_test2_work_step refMutex (thr j)
          ⟨KZT_MUTEX_TEST_MAGIC, file, .unheld, rc0⟩ .assert
          = some (⟨KZT_MUTEX_TEST_MAGIC, file, .unheld, rc0⟩, .enter, []) := by
        simp only [kzt_mutex_test2_work_step, hass]
      exact ⟨j, _, Sys.step_at refMutex thr j _ _ pcs _ _ _ hj w1⟩
    | enter =>
      exact ⟨j, _, Sys.step_at refMutex thr j _
        ⟨KZT_MUTEX_TEST_MAGIC, file, .held (thr j), rc0⟩ pcs _ .load
        [.mutex_enter (thr j)] hj rfl⟩
    | load => simp [PC.inside] at hi0
    | sleep r => simp [PC.inside] at hi0
    | store r => simp [PC.inside] at hi0
    | exit => simp [PC.inside] at hi0
    | done => simp at hnd
    | fault => simp at hnf0
  | held o =>
    simp at hin
    obtain ⟨pc, hpc, hi0⟩ := tally_pos PC.inside pcs (by omega)
    obtain ⟨j, hj⟩ := List.mem_iff_getElem?.mp hpc
    cases pc with
    | assert => simp [PC.inside] at hi0
    | enter => simp [PC.inside] at hi0
    | load => exact ⟨j, _, Sys.step_at refMutex thr j _ _ pcs _ _ _ hj rfl⟩
    | sleep r => exact ⟨j, _, Sys.step_at refMutex thr j _ _ pcs _ _ _ hj rfl⟩
    | store r => exact ⟨j, _, Sys.step_at refMutex thr j _ _ pcs _ _ _ hj rfl⟩
    | exit => exact ⟨j, _, Sys.step_at refMutex thr j _ _ pcs _ _ _ hj rfl⟩
    | done => simp [PC.inside] at hi0
    | fault => simp [PC.inside] at hi0

/-- With the reference mutex, every step executes one of the statements that
remain. -/
theorem exclusive_step_remaining (thr : Nat → Tid) (i : Nat) (s s2 : Sys KMutex)
    (hb : Exclusive s) (h : Sys.step refMutex thr i s = some s2) :
    tally PC.remaining s2.pcs + 1 = tally PC.remaining s.pcs := by
  obtain ⟨pc, mp, pc2, evs, hp, hw, rfl⟩ := Sys.step_some h
  obtain ⟨-, hmagic, -, -, -, -⟩ := hb
  obtain ⟨smp, pcs⟩ := s
  obtain ⟨magic, file, mtx, rc0⟩ := smp
  simp only at hp hw hmagic
  subst hmagic
  have ht := tally_set PC.remaining pcs i pc pc2 hp
  have hass : ASSERT (KZT_MUTEX_TEST_MAGIC == KZT_MUTEX_TEST_MAGIC) = none := by
    simp [ASSERT]
  cases pc with
  | assert =>
    simp only [kzt_mutex_test2_work_step, hass] at hw
    simp at hw
    obtain ⟨-, rfl, -⟩ := hw
    simp only [PC.remaining] at ht
    simp only
    omega
  | enter =>
    simp only [kzt_mutex_test2_work_step] at hw
    cases mtx with
    | held o => simp [refMutex] at hw
    | unheld =>
      simp [refMutex] at hw
      obtain ⟨-, rfl, -⟩ := hw
      simp only [PC.remaining] at ht
      simp only
      omega
  | load =>
    simp [kzt_mutex_test2_work_step] at hw
    obtain ⟨-, rfl, -⟩ := hw
    simp only [PC.remaining] at ht
    simp only
    omega
  | sleep r =>
    simp [kzt_mutex_test2_work_step] at hw
    obtain ⟨-, rfl, -⟩ := hw
    simp only [PC.remaining] at ht
    simp only
    omega
  | store r =>
    simp [kzt_mutex_test2_work_step] at hw
    obtain ⟨-, rfl, -⟩ := hw
    simp only [PC.remaining] at ht
    simp only
    omega
  | exit =>
    simp [kzt_mutex_test2_work_step] at hw
    obtain ⟨-, rfl, -⟩ := hw
    simp only [PC.remaining] at ht
    simp only
    omega
  | done => simp [kzt_mutex_test2_work_step] at hw
  | fault => simp [kzt_mutex_test2_work_step] at hw

/-- With the reference mutex, an interleaving of `n` executions has executed
as many statements as it is long: its length and the statements that remain
add up to `6 * n`. -/
theorem run_length_remaining (thr : Nat → Tid) (sched : List Nat) (s s2 : Sys KMutex)
    (hb : Exclusive s) (h : Sys.run refMutex thr sched s = some s2) :
    Exclusive s2 ∧
    sched.length + tally PC.remaining s2.pcs = tally PC.remaining s.pcs := by
  induction sched generalizing s with
  | nil =>
    simp [Sys.run] at h
    subst h
    exact ⟨hb, by simp⟩
  | cons i is ih =>
    simp only [Sys.run] at h
    cases hs : Sys.step refMutex thr i s with
    | none => simp [hs] at h
    | some s1 =>
      simp only [hs] at h
      have h1 := exclusive_step_remaining thr i s s1 hb hs
      obtain ⟨e2, h2⟩ := ih s1 (exclusive_step i s s1 hb hs) h
      refine ⟨e2, ?_⟩
      simp only [List.length_cons]
      omega

/-! ## Test 2: the race -/

/-- C2: `n` executions of `kzt_mutex_test2_work` (`n` at most INT_MAX, the
largest value of the `int` counter) on one shared record whose counter starts
at 0, over the reference mutex, which admits one holder at a time
(`mutex_enter` waits until the mutex is unheld).  Every interleaving that
completes the executions ends with `mp_rc = n`; such an interleaving exists;
no interleaving gets stuck before completion or takes more than `6 * n`
steps; and `flush_workqueue`, whenever it returns, returns the counter `n`
(128 for the KZT_MUTEX_TEST_COUNT items of test 2). -/
theorem race_counter_exact (n : Nat) (hn : (n : Int) ≤ INT_MAX) (thr : Nat → Tid)
    (file : Nat) :
    (∀ sched s,
      Sys.run refMutex thr sched (Sys.start ⟨KZT_MUTEX_TEST_MAGIC, file, .unheld, 0⟩ n)
        = some s →
      s.finished = true → s.mp.mp_rc = n) ∧
    (∃ sched s,
      Sys.run refMutex thr sched (Sys.start ⟨KZT_MUTEX_TEST_MAGIC, file, .unheld, 0⟩ n)
        = some s ∧
      s.finished = true) ∧
    (∀ sched s,
      Sys.run refMutex thr sched (Sys.start ⟨KZT_MUTEX_TEST_MAGIC, file, .unheld, 0⟩ n)
        = some s →
      sched.length ≤ 6 * n ∧
      (s.finished = false → ∃ i s2, Sys.step refMutex thr i s = some s2)) ∧
    (∀ sched mp,
      flush_workqueue refMutex thr sched ⟨KZT_MUTEX_TEST_MAGIC, file, .unheld, 0⟩ n
        = some mp →
      mp.mp_rc = n) := by
  refine ⟨?_, ?_, ?_, ?_⟩
  · intro sched s h hf
    exact run_exact thr file n hn sched s h hf
  · obtain ⟨s, h, hf, -⟩ := run_sequential thr file n hn
    exact ⟨_, s, h, hf⟩
  · intro sched s h
    obtain ⟨he, hl⟩ := run_length_remaining thr sched _ s (exclusive_start file n hn) h
    refine ⟨?_, fun hf => exclusive_progress thr s he hf⟩
    simp [Sys.start, tally_replicate, PC.remaining] at hl
    omega
  · intro sched mp h
    unfold flush_workqueue at h
    cases hr : Sys.run refMutex thr sched
        (Sys.start ⟨KZT_MUTEX_TEST_MAGIC, file, .unheld, 0⟩ n) with
    | none => simp [hr] at h
    | some s =>
      simp only [hr] at h
      by_cases hf : s.finished = true
      · simp [hf] at h
        rw [← h]
        exact run_exact thr file n hn sched s hr hf
      · simp [hf] at h

/-- Witness of C2: the 128 work items of test 2; the flush along the
sequential interleaving returns, and the counter it returns is 128. -/
theorem race_counter_exact_witness :
    ((KZT_MUTEX_TEST_COUNT : Nat) : Int) ≤ INT_MAX ∧
    flush_workqueue refMutex (fun i => i + 2) (sequential KZT_MUTEX_TEST_COUNT)
        ⟨KZT_MUTEX_TEST_MAGIC, 0, .unheld, 0⟩ KZT_MUTEX_TEST_COUNT
      = some ⟨KZT_MUTEX_TEST_MAGIC, 0, .unheld, 128⟩ ∧
    (⟨KZT_MUTEX_TEST_MAGIC, 0, .unheld, 128⟩ : mutex_priv KMutex).mp_rc
      = (KZT_MUTEX_TEST_COUNT : Nat) :=
  ⟨by decide, flush_sequential _ _ _ (by decide),
    (race_counter_exact KZT_MUTEX_TEST_COUNT (by decide) (fun i => i + 2) 0).2.2.2 _ _
      (flush_sequential _ _ _ (by decide))⟩

theorem countP_lt_of_rejected (p : Nat → Bool) (n i : Nat) (hi : i < n)
    (hp : p i = false) : (List.range n).countP p < n := by
  have h1 : (List.range n).countP p ≤ (List.range n).length := List.countP_le_length p
  simp only [List.length_range] at h1
  by_contra hc
  have h2 : (List.range n).countP p = (List.range n).length := by
    simp only [List.length_range]
    omega
  have h3 := List.countP_eq_length.mp h2 i (List.mem_range.mpr hi)
  rw [hp] at h3
  simp at h3

/-- C3: in an execution of `kzt_mutex_test2` in which the private state and
the workqueue are allocated and the flush returns (with the shared record
`mp`), whatever the mutex under test does: the test returns 0 if and only if
`mp_rc` equals KZT_MUTEX_TEST_COUNT after the flush, and -EINVAL otherwise.
If `queue_work` rejects one of the 128 submissions the test returns -EINVAL
(the counter is then below 128, and the check after the flush would return
-EINVAL for any counter). -/
theorem kzt_mutex_test2_spec {M : Type} (ops : MutexOps M) (env : Env)
    (mp : mutex_priv M) (hk : env.kmalloc_ok = true) (hw : env.wq_ok = true)
    (hf : test2_flushed ops env = some mp) :
    ((kzt_mutex_test2 ops env).rc = some 0 ↔ mp.mp_rc = KZT_MUTEX_TEST_COUNT) ∧
    ((kzt_mutex_test2 ops env).rc ≠ some 0 →
      (kzt_mutex_test2 ops env).rc = some (-EINVAL)) ∧
    ((∃ i, i < KZT_MUTEX_TEST_COUNT ∧ env.queue_ok i = false) →
      (kzt_mutex_test2 ops env).rc = some (-EINVAL) ∧
      mp.mp_rc < KZT_MUTEX_TEST_COUNT ∧
      ∀ (mp2 : mutex_priv M) (log : List (Event M)),
        (test2_check env mp2 (test2_loop (M := M) env test2_log0).rc log).rc
          = some (-EINVAL)) := by
  have hq : (test2_loop (M := M) env []).queued
      = (List.range KZT_MUTEX_TEST_COUNT).countP env.queue_ok := test2_loop_queued env []
  have hqle : (List.range KZT_MUTEX_TEST_COUNT).countP env.queue_ok
      ≤ KZT_MUTEX_TEST_COUNT := by
    have := List.countP_le_length (l := List.range KZT_MUTEX_TEST_COUNT) env.queue_ok
    simpa using this
  have hcount : (KZT_MUTEX_TEST_COUNT : Int) = 128 := rfl
  have hbound : 0 ≤ mp.mp_rc ∧
      mp.mp_rc ≤ ((List.range KZT_MUTEX_TEST_COUNT).countP env.queue_ok : Nat) := by
    have := flush_workqueue_le ops env.worker env.sched (test2_priv ops env) mp
      (test2_loop (M := M) env []).queued
      (by rw [hq]; unfold INT_MAX; omega) rfl hf
    rw [hq] at this
    exact this
  have hrc := test2_loop_rc (M := M) env test2_log0
  have hrej : (∃ i, i < KZT_MUTEX_TEST_COUNT ∧ env.queue_ok i = false) →
      (List.range KZT_MUTEX_TEST_COUNT).all env.queue_ok = false ∧
      (List.range KZT_MUTEX_TEST_COUNT).countP env.queue_ok < KZT_MUTEX_TEST_COUNT := by
    rintro ⟨i, hi, hp⟩
    refine ⟨?_, countP_lt_of_rejected _ _ i hi hp⟩
    by_contra hc
    have hall : (List.range KZT_MUTEX_TEST_COUNT).all env.queue_ok = true := by
      simpa using hc
    have := List.all_eq_true.mp hall i (List.mem_range.mpr hi)
    rw [hp] at this
    simp at this
  have hacc : (List.range KZT_MUTEX_TEST_COUNT).all env.queue_ok = false →
      (List.range KZT_MUTEX_TEST_COUNT).countP env.queue_ok < KZT_MUTEX_TEST_COUNT := by
    intro hall
    have : ∃ i, i < KZT_MUTEX_TEST_COUNT ∧ env.queue_ok i = false := by
      by_contra hc
      push_neg at hc
      have : (List.range KZT_MUTEX_TEST_COUNT).all env.queue_ok = true := by
        rw [List.all_eq_true]
        intro x hx
        have := hc x (List.mem_range.mp hx)
        simpa using this
      rw [this] at hall
      simp at hall
    exact (hrej this).2
  have hval : (kzt_mutex_test2 ops env).rc =
      if mp.mp_rc = KZT_MUTEX_TEST_COUNT then
        some (if (List.range KZT_MUTEX_TEST_COUNT).all env.queue_ok = true then 0
          else -EINVAL)
      else some (-EINVAL) := by
    simp only [kzt_mutex_test2, hk, hw, hf, test2_check, hrc, Bool.not_true,
      Bool.false_eq_true, if_false]
    split_ifs <;> rfl
  refine ⟨?_, ?_, ?_⟩
  · rw [hval]
    constructor
    · intro h
      by_contra hc
      simp [hc, EINVAL] at h
    · intro h
      cases hall : (List.range KZT_MUTEX_TEST_COUNT).all env.queue_ok with
      | true => simp [h]
      | false =>
        have := hacc hall
        omega
  · rw [hval]
    intro h
    split_ifs at h ⊢ with a b
    · simp at h
    · rfl
    · rfl
  · intro hex
    obtain ⟨hall, hlt⟩ := hrej hex
    refine ⟨?_, by omega, ?_⟩
    · rw [hval]
      split_ifs with a b
      · rw [hall] at b
        simp at b
      · rfl
      · rfl
    · intro mp2 log
      simp only [test2_check, hrc, hall, Bool.false_eq_true, if_false]
      split_ifs <;> rfl

theorem test2_flushed_env_race :
    test2_flushed refMutex env_race = some ⟨KZT_MUTEX_TEST_MAGIC, 0, .unheld, 128⟩ := by
  have hq : (test2_loop (M := KMutex) env_race []).queued = KZT_MUTEX_TEST_COUNT := by
    rw [test2_loop_queued]
    have h : (List.range KZT_MUTEX_TEST_COUNT).countP env_race.queue_ok
        = (List.range KZT_MUTEX_TEST_COUNT).length :=
      List.countP_eq_length.mpr (fun _ _ => rfl)
    rw [h, List.length_range]
  unfold test2_flushed
  rw [hq]
  exact flush_sequential _ _ _ (by decide)

/-- Witness of C3: the reference mutex, every submission accepted, the
workers running one after the other; the flush returns the counter 128. -/
theorem kzt_mutex_test2_spec_witness :
    env_race.kmalloc_ok = true ∧ env_race.wq_ok = true ∧
    test2_flushed refMutex env_race = some ⟨KZT_MUTEX_TEST_MAGIC, 0, .unheld, 128⟩ ∧
    ((kzt_mutex_test2 refMutex env_race).rc = some 0 ↔
      (⟨KZT_MUTEX_TEST_MAGIC, 0, .unheld, 128⟩ : mutex_priv KMutex).mp_rc
        = KZT_MUTEX_TEST_COUNT) :=
  ⟨by decide, by decide, test2_flushed_env_race,
    (kzt_mutex_test2_spec refMutex env_race _ (by decide) (by decide)
      test2_flushed_env_race).1⟩

end SplatMutex
